import Mathlib

/-!
# The offline caching layer of the ETEAS Energy service worker

A shallow embedding of `sw.js`: the strategy selection of `handleGetRequest`, the three
strategy executors `networkFirst`, `cacheFirst`, `staleWhileRevalidate`, and the offline
fallback `handleOffline`, over an explicit model of the platform's Cache Storage.

Conventions of the embedding.

* An `async` function becomes a pure function from the network behaviour and the cache
  storage before the call to a `Run`: the value its promise settles with, the cache storage
  once every write it started has completed (also the writes it did not await), the list
  of network fetches it issued, and the list of repository functions it entered.
* A JavaScript value that is either a `Response` or `undefined` is an `Option Response`.
* URLs are written relative to the worker's origin, the base against which
  `caches.match("/index.html")` resolves its argument; the cache key of a request is its
  `url`.  `pathname` is what `new URL(request.url).pathname` yields.
* Cache Storage operations do not fail, except that `cache.put` and `cache.addAll` refuse
  what the platform refuses: a response of status 206, a response whose `Vary` header has
  the field `*`, and for `cache.put` a request whose method is not GET.
-/

namespace ServiceWorker

/-! ## Data model -/

/-- A `Response` object: status code, headers and body text. -/
structure Response where
  status : Nat
  headers : List (String × String)
  body : String
  deriving DecidableEq, Repr

/-- The `ok` flag of a response: the status lies in the range 200 to 299. -/
def Response.ok (r : Response) : Bool :=
  decide (200 ≤ r.status) && decide (r.status ≤ 299)

/-- A `Request` object, with the parts of it the worker reads: `accept` is
`request.headers.get("Accept")`, `none` when the header is missing. -/
structure Request where
  method : String
  origin : String
  url : String
  pathname : String
  accept : Option String
  deriving DecidableEq, Repr

/-- The outcome of a promise: resolved with a value or rejected with an error. -/
inductive Settled (α : Type) where
  | resolved (value : α)
  | rejected (error : String)
  deriving DecidableEq, Repr

/-- The entries of one cache partition, request URL to response, oldest first. -/
abbrev Cache := List (String × Response)

/-- The origin's cache storage: the named partitions in creation order. -/
abbrev CacheStorage := List (String × Cache)

/-- The repository functions whose calls a run records. -/
inductive Fn where
  | networkFirst
  | cacheFirst
  | staleWhileRevalidate
  | handleOffline
  deriving DecidableEq, Repr

/-- What a call of an `async` function of the worker amounts to. -/
structure Run where
  result : Settled (Option Response)
  caches : CacheStorage
  fetches : List Request
  calls : List Fn
  deriving DecidableEq, Repr

/-! ## Configuration constants -/

def CACHE_NAME : String := "eteas-energy-v1.0.0"

def OFFLINE_CACHE_NAME : String := "eteas-offline-v1.0.0"

def CORE_ASSETS : List String :=
  ["/", "/index.html", "/about.html", "/services.html", "/products.html", "/projects.html",
   "/contact.html", "/404.html", "/assets/css/main.css", "/assets/css/responsive.css",
   "/assets/css/forms.css", "/assets/js/main.js", "/assets/js/contact.js", "/manifest.json"]

def NETWORK_FIRST : List String := ["/contact.html", "/api/", "/_netlify/"]

/-- The alternatives of the regular expression in `isStaticAsset`, in the order written. -/
def STATIC_ALTERNATIVES : List String :=
  ["css", "js", "jpg", "jpeg", "png", "gif", "webp", "svg", "woff", "woff2", "ttf", "eot", "ico"]

/-! ## String primitives of the language -/

/-- The method `s.startsWith(pattern)`. -/
def startsWith (s pattern : String) : Bool :=
  pattern.data.isPrefixOf s.data

/-- The method `s.includes(part)`: `part` occurs at some position of `s`. -/
def includes (s part : String) : Bool :=
  s.data.tails.any (fun rest => part.data.isPrefixOf rest)

/-- One attempt of the expression `\.(a1|a2|...)$` at a fixed start position: a literal
dot, then one of the alternatives, then the end of the input.  The engine backtracks over
the alternatives, so the attempt succeeds when any of them reaches the end. -/
def matchDotAlternativesEnd (alternatives : List String) (rest : List Char) : Bool :=
  match rest with
  | [] => false
  | c :: tail => c == '.' && alternatives.any (fun a => decide (tail = a.data))

/-- The method `test` of the unanchored expression `\.(a1|a2|...)$`: an attempt at every
start position, left to right. -/
def regexTest (alternatives : List String) (s : String) : Bool :=
  s.data.tails.any (matchDotAlternativesEnd alternatives)

/-! ## Cache Storage (platform) -/

/-- The lookup `cache.match(url)` within the entries of one partition. -/
def entriesMatch : Cache → String → Option Response
  | [], _ => none
  | (key, response) :: rest, url =>
    if key = url then some response else entriesMatch rest url

/-- The write `cache.put(url, response)` within the entries of one partition: an entry with
the same key is dropped, the new entry is added. -/
def entriesPut (entries : Cache) (url : String) (response : Response) : Cache :=
  entries.filter (fun e => decide (e.1 ≠ url)) ++ [(url, response)]

/-- The test `caches.has(name)`. -/
def cachesHas (caches : CacheStorage) (name : String) : Bool :=
  caches.any (fun p => decide (p.1 = name))

/-- The names `caches.keys()` lists. -/
def cachesKeys (caches : CacheStorage) : List String :=
  caches.map Prod.fst

/-- The storage after `caches.open(name)`: the partition is created empty when it does not
exist. The handle the call returns is the name. -/
def cachesOpen (caches : CacheStorage) (name : String) : CacheStorage :=
  if cachesHas caches name then caches else caches ++ [(name, [])]

/-- The storage after `caches.delete(name)`. -/
def cachesDelete (caches : CacheStorage) (name : String) : CacheStorage :=
  caches.filter (fun p => decide (p.1 ≠ name))

/-- The lookup `cache.match(url)` through the handle of the partition called `name`. -/
def cacheMatch : CacheStorage → String → String → Option Response
  | [], _, _ => none
  | (n, entries) :: rest, name, url =>
    if n = name then entriesMatch entries url else cacheMatch rest name url

/-- The storage once the entry for `url` in the partition called `name` has been replaced by
`response`: what an accepted `cache.put` and `cache.addAll` do to the storage. -/
def cacheWrite : CacheStorage → String → String → Response → CacheStorage
  | [], _, _, _ => []
  | (n, entries) :: rest, name, url, response =>
    if n = name then (n, entriesPut entries url response) :: cacheWrite rest name url response
    else (n, entries) :: cacheWrite rest name url response

/-- The lookup `caches.match(url)` on the whole storage: the partitions are searched in
creation order and the first entry found is returned. -/
def cachesMatch : CacheStorage → String → Option Response
  | [], _ => none
  | (_, entries) :: rest, url =>
    match entriesMatch entries url with
    | some response => some response
    | none => cachesMatch rest url

/-- The fields of a header value that holds a comma-separated list. -/
def splitComma : List Char → List (List Char)
  | [] => [[]]
  | c :: rest =>
    match splitComma rest with
    | [] => [[]]
    | field :: fields => if c = ',' then [] :: field :: fields else (c :: field) :: fields

/-- A header field without the spaces and tabs around it. -/
def trimField (field : List Char) : List Char :=
  ((field.dropWhile (fun c => c == ' ' || c == '\t')).reverse.dropWhile
    (fun c => c == ' ' || c == '\t')).reverse

/-- Whether the response has a `Vary` header (the name in any case) one of whose fields
is `*`. -/
def varyHasStar (response : Response) : Bool :=
  response.headers.any (fun header =>
    header.1.data.map Char.toLower == "vary".data &&
      (splitComma header.2.data).any (fun field => trimField field == ['*']))

/-- Whether `cache.put(request, response)` accepts its arguments (platform): the promise
rejects with a `TypeError`, and nothing is stored, when the method of the request is not
GET, when the status of the response is 206, and when its `Vary` header has the field `*`. -/
def putAccepts (request : Request) (response : Response) : Bool :=
  decide (request.method = "GET") && decide (response.status ≠ 206) && !varyHasStar response

/-- The storage after `cache.put(request, response)` through the handle of the partition
called `name`, once the promise of the call has settled. The worker neither awaits nor
catches that promise: when the call is refused the storage is as it was and the rejection
is unhandled. -/
def cachePut (caches : CacheStorage) (name : String) (request : Request)
    (response : Response) : CacheStorage :=
  if putAccepts request response then cacheWrite caches name request.url response
  else caches

/-! ## Strategy selection -/

/-- Determine if pathname should use the network-first strategy. -/
def shouldUseNetworkFirst (pathname : String) : Bool :=
  NETWORK_FIRST.any (fun pattern => startsWith pathname pattern)

/-- Determine if pathname is a static asset. -/
def isStaticAsset (pathname : String) : Bool :=
  regexTest STATIC_ALTERNATIVES pathname

/-! ## Strategy executors -/

/-- Network-first strategy: try the network, fall back to the cache. -/
def networkFirst (fetch : Request → Settled Response) (caches : CacheStorage)
    (request : Request) : Run :=
  match fetch request with
  | .resolved networkResponse =>
    if networkResponse.ok then
      let opened := cachesOpen caches CACHE_NAME
      ⟨.resolved (some networkResponse),
        cachePut opened CACHE_NAME request networkResponse, [request], [.networkFirst]⟩
    else
      ⟨.resolved (some networkResponse), caches, [request], [.networkFirst]⟩
  | .rejected error =>
    match cachesMatch caches request.url with
    | some cachedResponse =>
      ⟨.resolved (some cachedResponse), caches, [request], [.networkFirst]⟩
    | none => ⟨.rejected error, caches, [request], [.networkFirst]⟩

/-- Cache-first strategy: try the cache, fall back to the network. -/
def cacheFirst (fetch : Request → Settled Response) (caches : CacheStorage)
    (request : Request) : Run :=
  match cachesMatch caches request.url with
  | some cachedResponse => ⟨.resolved (some cachedResponse), caches, [], [.cacheFirst]⟩
  | none =>
    match fetch request with
    | .resolved networkResponse =>
      if networkResponse.ok then
        let opened := cachesOpen caches CACHE_NAME
        ⟨.resolved (some networkResponse),
          cachePut opened CACHE_NAME request networkResponse, [request], [.cacheFirst]⟩
      else
        ⟨.resolved (some networkResponse), caches, [request], [.cacheFirst]⟩
    | .rejected error => ⟨.rejected error, caches, [request], [.cacheFirst]⟩

/-- Stale-while-revalidate: return the cached version if there is one, update the cache
from the network in the background.  `background` is what `networkResponsePromise` settles
with, together with the storage its handlers leave. -/
def staleWhileRevalidate (fetch : Request → Settled Response) (caches : CacheStorage)
    (request : Request) : Run :=
  let opened := cachesOpen caches CACHE_NAME
  let cachedResponse := cacheMatch opened CACHE_NAME request.url
  let background : Option Response × CacheStorage :=
    match fetch request with
    | .resolved networkResponse =>
      if networkResponse.ok then
        (some networkResponse, cachePut opened CACHE_NAME request networkResponse)
      else
        (some networkResponse, opened)
    | .rejected _ => (cachedResponse, opened)
  match cachedResponse with
  | some cached => ⟨.resolved (some cached), background.2, [request], [.staleWhileRevalidate]⟩
  | none => ⟨.resolved background.1, background.2, [request], [.staleWhileRevalidate]⟩

/-! ## Offline fallback -/

/-- The text of the template literal in `handleOffline`. -/
def OFFLINE_PAGE : String := String.join [
  "\n",
  "    <!DOCTYPE html>\n",
  "    <html>\n",
  "    <head>\n",
  "      <title>Offline - ETEAS Energy</title>\n",
  "      <meta name=\"viewport\" content=\"width=device-width, initial-scale=1.0\">\n",
  "      <style>\n",
  "        body \x7b\n",
  "          font-family: -apple-system, BlinkMacSystemFont, \x27Segoe UI\x27, sans-serif;\n",
  "          display: flex;\n",
  "          justify-content: center;\n",
  "          align-items: center;\n",
  "          min-height: 100vh;\n",
  "          margin: 0;\n",
  "          background: linear-gradient(135deg, #1e3a8a 0%, #3b82f6 100%);\n",
  "          color: white;\n",
  "          text-align: center;\n",
  "          padding: 20px;\n",
  "        \x7d\n",
  "        .offline-content \x7b\n",
  "          max-width: 500px;\n",
  "        \x7d\n",
  "        h1 \x7b\n",
  "          font-size: 2.5rem;\n",
  "          margin-bottom: 1rem;\n",
  "        \x7d\n",
  "        p \x7b\n",
  "          font-size: 1.1rem;\n",
  "          margin-bottom: 2rem;\n",
  "          opacity: 0.9;\n",
  "        \x7d\n",
  "        .btn \x7b\n",
  "          background: rgba(255, 255, 255, 0.2);\n",
  "          border: 1px solid rgba(255, 255, 255, 0.3);\n",
  "          color: white;\n",
  "          padding: 12px 24px;\n",
  "          border-radius: 8px;\n",
  "          text-decoration: none;\n",
  "          display: inline-block;\n",
  "          margin: 10px;\n",
  "          transition: all 0.3s ease;\n",
  "        \x7d\n",
  "        .btn:hover \x7b\n",
  "          background: rgba(255, 255, 255, 0.3);\n",
  "        \x7d\n",
  "      </style>\n",
  "    </head>\n",
  "    <body>\n",
  "      <div class=\"offline-content\">\n",
  "        <h1>You\x27re Offline</h1>\n",
  "        <p>It looks like you\x27re not connected to the internet. Some content may not be available, but you can still browse cached pages.</p>\n",
  "        <a href=\"/\" class=\"btn\">Try Again</a>\n",
  "        <a href=\"/index.html\" class=\"btn\">Go Home</a>\n",
  "      </div>\n",
  "    </body>\n",
  "    </html>\n",
  "    "]

/-- The response `new Response(body, { headers })` that `handleOffline` builds: the
default status 200 and the one header given. -/
def offlineResponse : Response :=
  ⟨200, [("Content-Type", "text/html; charset=utf-8")], OFFLINE_PAGE⟩

/-- The test `request.headers.get("Accept")?.includes("text/html")`: a missing header makes
the optional chain yield `undefined`, which is falsy. -/
def acceptsHtml (request : Request) : Bool :=
  match request.accept with
  | some accept => includes accept "text/html"
  | none => false

/-- Handle offline scenarios. -/
def handleOffline (caches : CacheStorage) (request : Request) : Run :=
  match cachesMatch caches request.url with
  | some cachedResponse => ⟨.resolved (some cachedResponse), caches, [], [.handleOffline]⟩
  | none =>
    if acceptsHtml request then
      match cachesMatch caches "/index.html" with
      | some cachedResponse =>
        ⟨.resolved (some cachedResponse), caches, [], [.handleOffline]⟩
      | none =>
        match cachesMatch caches "/404.html" with
        | some cachedResponse =>
          ⟨.resolved (some cachedResponse), caches, [], [.handleOffline]⟩
        | none => ⟨.resolved (some offlineResponse), caches, [], [.handleOffline]⟩
    else
      ⟨.resolved (some offlineResponse), caches, [], [.handleOffline]⟩

/-! ## Request handling -/

/-- Handle GET requests with different caching strategies: the `try` block selects one
executor, the `catch` block answers a rejection with `handleOffline`. -/
def handleGetRequest (fetch : Request → Settled Response) (caches : CacheStorage)
    (request : Request) : Run :=
  let pathname := request.pathname
  let attempt : Run :=
    if shouldUseNetworkFirst pathname then networkFirst fetch caches request
    else if isStaticAsset pathname then cacheFirst fetch caches request
    else staleWhileRevalidate fetch caches request
  match attempt.result with
  | .resolved _ => attempt
  | .rejected _ =>
    let offline := handleOffline attempt.caches request
    ⟨offline.result, offline.caches, attempt.fetches ++ offline.fetches,
      attempt.calls ++ offline.calls⟩

/-! ## Activation, cache cleaning and messages -/

/-- The objects the message listener posts: `{ version: name }` and `{ success: flag }`. -/
inductive Reply where
  | version (name : String)
  | success (flag : Bool)
  deriving DecidableEq, Repr

/-- What a lifecycle or message handler does besides reading the cache storage, one item
per call, in the order of the calls. -/
inductive Effect where
  | cacheDelete (name : String)
  | clientsClaim
  | skipWaiting
  | postMessage (port : Nat) (message : Reply)
  deriving DecidableEq, Repr

/-- What a run of a lifecycle or message handler amounts to: the cache storage it leaves and
the effects it had. -/
structure WorkerRun where
  caches : CacheStorage
  effects : List Effect
  deriving DecidableEq, Repr

/-- A message event, with the parts of it the worker reads: `type` is `event.data.type`,
`ports` are the identifiers of the ports in `event.ports`. -/
structure MessageEvent where
  type : String
  ports : List Nat
  deriving DecidableEq, Repr

/-- One call `caches.delete(name)` within a run. -/
def deleteStep (run : WorkerRun) (name : String) : WorkerRun :=
  ⟨cachesDelete run.caches name, run.effects ++ [.cacheDelete name]⟩

/-- The activate listener: the callback of `map` runs once per name of `caches.keys()`, in
order, and deletes the partition when the name is neither of the two current names; when
`Promise.all` has resolved, `clients.claim()` is called. -/
def activateListener (caches : CacheStorage) : WorkerRun :=
  let cacheNames := cachesKeys caches
  let evicted : WorkerRun :=
    cacheNames.foldl
      (fun run cacheName =>
        if cacheName ≠ CACHE_NAME ∧ cacheName ≠ OFFLINE_CACHE_NAME then
          deleteStep run cacheName
        else run)
      ⟨caches, []⟩
  ⟨evicted.caches, evicted.effects ++ [.clientsClaim]⟩

/-- Clean old caches manually: the names of `caches.keys()` are filtered first, then every
name that is left is deleted. -/
def cleanOldCaches (caches : CacheStorage) : WorkerRun :=
  let cacheNames := cachesKeys caches
  let oldCaches :=
    cacheNames.filter (fun name => decide (name ≠ CACHE_NAME ∧ name ≠ OFFLINE_CACHE_NAME))
  oldCaches.foldl (fun run name => deleteStep run name) ⟨caches, []⟩

/-- The message listener. `event.ports[0]` is `undefined` when the event carries no port, and
the call of `postMessage` on it then throws, so that nothing is posted. -/
def messageListener (caches : CacheStorage) (event : MessageEvent) : WorkerRun :=
  if event.type = "SKIP_WAITING" then
    ⟨caches, [.skipWaiting]⟩
  else if event.type = "GET_VERSION" then
    match event.ports.head? with
    | some port => ⟨caches, [.postMessage port (.version CACHE_NAME)]⟩
    | none => ⟨caches, []⟩
  else if event.type = "CLEAN_CACHE" then
    let cleaned := cleanOldCaches caches
    match event.ports.head? with
    | some port => ⟨cleaned.caches, cleaned.effects ++ [.postMessage port (.success true)]⟩
    | none => cleaned
  else
    ⟨caches, []⟩

/-! ## The promise chain of the activate listener

The activate listener once more, this time with the promises it builds: an operation of the
platform is started by its call and completes later, several operations can be pending at
once, and which of them completes next is not up to the worker. -/

/-- The operations of the platform that the activate listener calls. -/
inductive Op where
  | keys
  | delete (name : String)
  | claim
  deriving DecidableEq, Repr

/-- What can be observed of an operation: the call that starts it, and its completion, which
is when its promise resolves. -/
inductive OpEvent where
  | started (op : Op)
  | completed (op : Op)
  deriving DecidableEq, Repr

/-- A promise expression together with its progress.
`resolved` is a value that is settled already, also a value that is no promise;
`call op` is a call of the platform yet to be made, `pending op` the promise of a call that
has been made; `all head tail` is `Promise.all` of an array, first element and rest;
`chain source callback returned` is `source.then(callback)`, where `callback` receives the
cache storage as it is when it runs and `returned` says whether it returns the promise it
builds; `detached inner` is a promise that a callback built and did not return, so that
nothing waits for it. -/
inductive Async where
  | resolved
  | call (op : Op)
  | pending (op : Op)
  | all (head tail : Async)
  | chain (source : Async) (callback : CacheStorage → Async) (returned : Bool)
  | detached (inner : Async)

namespace Async

/-- Whether the promise has settled. A chain is replaced by what its callback built as soon
as the callback has run, so a chain that is still there has not settled. -/
def settled : Async → Bool
  | resolved => true
  | call _ => false
  | pending _ => false
  | all head tail => settled head && settled tail
  | chain _ _ _ => false
  | detached _ => true

/-- What a callback leaves in the place of its chain: the promise it returns, or a settled
value next to which the promise it built goes on by itself. -/
def wrap (returned : Bool) (built : Async) : Async :=
  if returned then built else detached built

/-- The promise `Promise.all(array)`. -/
def allOf : List Async → Async
  | [] => resolved
  | head :: tail => all head (allOf tail)

/-- The operations that are pending, in the order of their calls. -/
def pendingOps : Async → List Op
  | resolved => []
  | call _ => []
  | pending op => [op]
  | all head tail => pendingOps head ++ pendingOps tail
  | chain source _ _ => pendingOps source
  | detached inner => pendingOps inner

/-- What takes the place of a chain whose callback has run: what the callback left, and next
to it the source when operations are still pending inside it, which is the case only when
the source holds promises that nothing waits for. -/
def keep (source left : Async) : Async :=
  if (pendingOps source).isEmpty then left else all (detached source) left

/-- Everything that can run now runs: the calls that have been reached are made, in order,
and the callback of every chain whose source has settled runs. The result is the promise
afterwards and the operations started, in order. -/
def launch (caches : CacheStorage) : Async → Async × List Op
  | resolved => (resolved, [])
  | call op => (pending op, [op])
  | pending op => (pending op, [])
  | all head tail =>
    ((all (launch caches head).1 (launch caches tail).1),
      (launch caches head).2 ++ (launch caches tail).2)
  | chain source callback returned =>
    if settled (launch caches source).1 then
      (keep (launch caches source).1 (wrap returned (launch caches (callback caches)).1),
        (launch caches source).2 ++ (launch caches (callback caches)).2)
    else (chain (launch caches source).1 callback returned, (launch caches source).2)
  | detached inner => (detached (launch caches inner).1, (launch caches inner).2)

/-- The promise once the first pending `op` has completed, and whether there was one. -/
def completeFirst (op : Op) : Async → Async × Bool
  | resolved => (resolved, false)
  | call other => (call other, false)
  | pending other => if other = op then (resolved, true) else (pending other, false)
  | all head tail =>
    if (completeFirst op head).2 then (all (completeFirst op head).1 tail, true)
    else (all head (completeFirst op tail).1, (completeFirst op tail).2)
  | chain source callback returned =>
    (chain (completeFirst op source).1 callback returned, (completeFirst op source).2)
  | detached inner => (detached (completeFirst op inner).1, (completeFirst op inner).2)

end Async

/-- The operation that completes next, chosen among the pending ones by the number
`choice`; a number beyond the list chooses the last one. -/
def pick : List Op → Nat → Op → Op
  | [], _, fallback => fallback
  | op :: _, 0, _ => op
  | op :: rest, choice + 1, _ => pick rest choice op

/-- What the completion of an operation does to the cache storage. -/
def applyOp (op : Op) (caches : CacheStorage) : CacheStorage :=
  match op with
  | .delete name => cachesDelete caches name
  | _ => caches

/-- The state of an execution: the promise with its progress, the cache storage, and the
events so far, each with the storage at that moment. -/
structure Machine where
  promise : Async
  caches : CacheStorage
  trace : List (OpEvent × CacheStorage)

/-- The beginning of an execution: the expression is evaluated. -/
def start (promise : Async) (caches : CacheStorage) : Machine :=
  ⟨(Async.launch caches promise).1, caches,
    (Async.launch caches promise).2.map (fun op => (OpEvent.started op, caches))⟩

/-- One step of an execution: a pending operation completes, then everything that can run
runs. Without a pending operation nothing happens. -/
def step (choice : Nat) (m : Machine) : Machine :=
  match Async.pendingOps m.promise with
  | [] => m
  | first :: rest =>
    let op := pick (first :: rest) choice first
    let caches := applyOp op m.caches
    let launched := Async.launch caches (Async.completeFirst op m.promise).1
    ⟨launched.1, caches,
      m.trace ++ (OpEvent.completed op, caches)
        :: launched.2.map (fun started => (OpEvent.started started, caches))⟩

/-- An execution: one step per number of the schedule. -/
def run (schedule : List Nat) (m : Machine) : Machine :=
  schedule.foldl (fun m choice => step choice m) m

/-- The first callback of `then` in the activate listener, which receives the names of
`caches.keys()`: `Promise.all(cacheNames.map(...))`, where the callback of `map` returns the
promise of `caches.delete` for a name that is neither of the two current names, and
`undefined` for the others. -/
def evictCallback (caches : CacheStorage) : Async :=
  Async.allOf ((cachesKeys caches).map (fun cacheName =>
    if cacheName ≠ CACHE_NAME ∧ cacheName ≠ OFFLINE_CACHE_NAME then
      Async.call (.delete cacheName)
    else Async.resolved))

/-- The second callback of `then` in the activate listener: `clients.claim()`. -/
def claimCallback (_ : CacheStorage) : Async :=
  .call .claim

/-- The promise the activate listener gives to `event.waitUntil`:
`caches.keys().then(...).then(...)`, in which both callbacks return the promise they
build. -/
def activateChain : Async :=
  .chain (.chain (.call .keys) evictCallback true) claimCallback true

/-- A listener unlike the one of the source, for comparison: the first callback builds the
same `Promise.all` and does not return it. -/
def activateChainNotReturning : Async :=
  .chain (.chain (.call .keys) evictCallback false) claimCallback true

/-- The promise `Promise.all` of the deletions in progress: `some name` stands for the
pending deletion of `name`, `none` for an element that has settled. -/
def slotsPromise : List (Option String) → Async
  | [] => .resolved
  | none :: rest => .all .resolved (slotsPromise rest)
  | some name :: rest => .all (.pending (.delete name)) (slotsPromise rest)

/-- The slots once the first pending deletion of `name` has completed. -/
def clearFirst (name : String) : List (Option String) → List (Option String)
  | [] => []
  | none :: rest => none :: clearFirst name rest
  | some other :: rest =>
    if other = name then none :: rest else some other :: clearFirst name rest

/-- The number of deletions that are pending. -/
def countPending : List (Option String) → Nat
  | [] => 0
  | none :: rest => countPending rest
  | some _ :: rest => countPending rest + 1

/-- The slots that the first callback opens for the names it receives. -/
def toSlots (names : List String) : List (Option String) :=
  names.map (fun name =>
    if name ≠ CACHE_NAME ∧ name ≠ OFFLINE_CACHE_NAME then some name else none)

/-- No call of `clients.claim` among the events. -/
def NoClaim (trace : List (OpEvent × CacheStorage)) : Prop :=
  ∀ e ∈ trace, e.1 ≠ OpEvent.started Op.claim

/-- The events hold one call of `clients.claim`; before it every name of the storage `caches`
that is neither of the two current names has had its deletion completed, and the storage
at the call holds the partitions of the two current names only. -/
def ClaimedAfterEviction (caches : CacheStorage)
    (trace : List (OpEvent × CacheStorage)) : Prop :=
  ∃ pre cs post, trace = pre ++ (OpEvent.started Op.claim, cs) :: post ∧
    NoClaim pre ∧ NoClaim post ∧
    (∀ name ∈ cachesKeys caches, name ≠ CACHE_NAME → name ≠ OFFLINE_CACHE_NAME →
      ∃ c, (OpEvent.completed (Op.delete name), c) ∈ pre) ∧
    cs = caches.filter (fun p => decide (p.1 = CACHE_NAME ∨ p.1 = OFFLINE_CACHE_NAME))

/-- The state of an execution of `activateChain` in which `caches.keys()` is pending. -/
def PhaseKeys (caches : CacheStorage) (m : Machine) : Prop :=
  m.promise = .chain (.chain (.pending .keys) evictCallback true) claimCallback true ∧
    m.caches = caches ∧ NoClaim m.trace

/-- The state of an execution of `activateChain` in which deletions are pending; `gone` are
the names whose deletion has completed. -/
def PhaseDeleting (caches : CacheStorage) (slots : List (Option String))
    (m : Machine) : Prop :=
  m.promise = .chain (slotsPromise slots) claimCallback true ∧ 0 < countPending slots ∧
    ∃ gone : List String,
      m.caches = caches.filter (fun p => decide (p.1 ∉ gone)) ∧
      (∀ name ∈ gone, name ≠ CACHE_NAME ∧ name ≠ OFFLINE_CACHE_NAME) ∧
      (∀ name, some name ∈ slots → name ≠ CACHE_NAME ∧ name ≠ OFFLINE_CACHE_NAME) ∧
      (∀ name ∈ cachesKeys caches, name ≠ CACHE_NAME ∧ name ≠ OFFLINE_CACHE_NAME →
        name ∈ gone ∨ some name ∈ slots) ∧
      (∀ name ∈ gone, ∃ c, (OpEvent.completed (Op.delete name), c) ∈ m.trace) ∧
      NoClaim m.trace

/-- The state of an execution of `activateChain` after the call of `clients.claim`. -/
def PhaseClaimed (caches : CacheStorage) (m : Machine) : Prop :=
  (m.promise = .pending .claim ∨ m.promise = .resolved) ∧
    ClaimedAfterEviction caches m.trace

/-! ## Installation -/

/-- The fetches of `cache.addAll(urls)` (platform): the promise for the whole list resolves
with the pairs of URL and response when every fetch resolves with an ok response that can
be stored (status other than 206, no `Vary` field `*`), and rejects otherwise. -/
def fetchAll (fetchUrl : String → Settled Response) :
    List String → Settled (List (String × Response))
  | [] => .resolved []
  | url :: rest =>
    match fetchUrl url with
    | .rejected error => .rejected error
    | .resolved response =>
      if response.ok && decide (response.status ≠ 206) && !varyHasStar response then
        match fetchAll fetchUrl rest with
        | .resolved pairs => .resolved ((url, response) :: pairs)
        | .rejected error => .rejected error
      else .rejected "TypeError: bad response status"

/-- The call `cache.addAll(urls)` through the handle of the partition called `name`
(platform): all the responses are stored, or the promise rejects and none is stored. -/
def cacheAddAll (fetchUrl : String → Settled Response) (caches : CacheStorage)
    (name : String) (urls : List String) : Settled Unit × CacheStorage :=
  match fetchAll fetchUrl urls with
  | .resolved pairs =>
    (.resolved (), pairs.foldl (fun cs pair => cacheWrite cs name pair.1 pair.2) caches)
  | .rejected error => (.rejected error, caches)

/-- What a run of the install listener amounts to: what the promise given to
`event.waitUntil` settles with, the cache storage it leaves, its effects, and the errors
written with `console.error`. -/
structure InstallRun where
  result : Settled Unit
  caches : CacheStorage
  effects : List Effect
  errors : List String
  deriving DecidableEq, Repr

/-- The install listener: open the primary partition, add the core assets, then skip
waiting; the `catch` handler at the end of the chain logs the error and returns, so that
the promise of the chain resolves. -/
def installListener (fetchUrl : String → Settled Response) (caches : CacheStorage) :
    InstallRun :=
  let opened := cachesOpen caches CACHE_NAME
  match cacheAddAll fetchUrl opened CACHE_NAME CORE_ASSETS with
  | (.resolved _, stored) => ⟨.resolved (), stored, [.skipWaiting], []⟩
  | (.rejected error, stored) => ⟨.resolved (), stored, [], [error]⟩

/-! ## Interception -/

/-- What a run of the fetch listener amounts to: the promise given to `event.respondWith`,
if the listener called it, with the storage, fetches and calls of the run. -/
structure FetchEventRun where
  respondWith : Option (Settled (Option Response))
  caches : CacheStorage
  fetches : List Request
  calls : List Fn
  deriving DecidableEq, Repr

/-- The fetch listener; `locationOrigin` is `location.origin`, and `request.origin` is the
origin of `new URL(request.url)`. -/
def fetchListener (locationOrigin : String) (fetch : Request → Settled Response)
    (caches : CacheStorage) (request : Request) : FetchEventRun :=
  if request.origin ≠ locationOrigin then
    ⟨none, caches, [], []⟩
  else if request.method = "GET" then
    let handled := handleGetRequest fetch caches request
    ⟨some handled.result, handled.caches, handled.fetches, handled.calls⟩
  else
    ⟨none, caches, [], []⟩

/-! ## Background sync -/

/-- A pending form submission. -/
structure Form where
  id : Nat
  data : String
  deriving DecidableEq, Repr

/-- What a run of `syncContactForms` amounts to: what its promise settles with, the POST
requests it issued as pairs of URL and body, in order, and the identifiers it passed to
`removePendingFormSubmission`, in order. -/
structure SyncRun where
  result : Settled Unit
  posts : List (String × String)
  removed : List Nat
  deriving DecidableEq, Repr

/-- The placeholder of the source: no submission is pending. -/
def getPendingFormSubmissions : Settled (List Form) := .resolved []

/-- The `for` loop of `syncContactForms`; `post k` is what the POST number `k` of the run
settles with. The inner `catch` logs a rejection and the loop goes on. -/
def syncForms (post : Nat → Settled Response) :
    Nat → List Form → List (String × String) × List Nat
  | _, [] => ([], [])
  | k, form :: rest =>
    let later := syncForms post (k + 1) rest
    match post k with
    | .resolved response =>
      if response.ok then (("/contact", form.data) :: later.1, form.id :: later.2)
      else (("/contact", form.data) :: later.1, later.2)
    | .rejected _ => (("/contact", form.data) :: later.1, later.2)

/-- Sync contact form submissions when back online; `pending` is what
`getPendingFormSubmissions()` settles with. The outer `catch` logs a rejection. -/
def syncContactForms (pending : Settled (List Form)) (post : Nat → Settled Response) :
    SyncRun :=
  match pending with
  | .resolved pendingForms =>
    ⟨.resolved (), (syncForms post 0 pendingForms).1, (syncForms post 0 pendingForms).2⟩
  | .rejected _ => ⟨.resolved (), [], []⟩

/-! ## Sample data -/

/-- A same-origin GET request for `path` that sends no `Accept` header. -/
def getRequest (path : String) : Request :=
  ⟨"GET", "https://eteas.example", path, path, none⟩

/-- A response with the given status and body and no headers. -/
def sampleResponse (status : Nat) (body : String) : Response :=
  ⟨status, [], body⟩


end ServiceWorker

/-! # Form validation (`main.js`, `contact.js`)

The two field validators that are bound to the contact form. Only the value they return is
modelled; the error messages they show are not.
-/

namespace Forms

/-- A form control, with the parts of it the validators read: `required` is
`hasAttribute("required")`. -/
structure Field where
  type : String
  id : String
  value : String
  required : Bool
  checked : Bool
  deriving DecidableEq, Repr

/-- The white space of the language: the characters that `trim` strips and that the class
`\s` holds. -/
def isWhiteSpace (c : Char) : Bool :=
  [0x9, 0xA, 0xB, 0xC, 0xD, 0x20, 0xA0, 0x1680, 0x2028, 0x2029, 0x202F, 0x205F, 0x3000,
    0xFEFF].contains c.toNat || (decide (0x2000 ≤ c.toNat) && decide (c.toNat ≤ 0x200A))

/-- The method `s.trim()`. -/
def trim (s : String) : String :=
  ⟨((s.data.dropWhile isWhiteSpace).reverse.dropWhile isWhiteSpace).reverse⟩

/-- The property `s.length`: the number of UTF-16 code units. -/
def jsLength (s : String) : Nat :=
  (s.data.map (fun c => if c.toNat < 0x10000 then 1 else 2)).sum

/-- The class `\d`: the ten digit characters. -/
def isDigit (c : Char) : Bool :=
  "0123456789".data.contains c

/-- A class range `lo-hi`: the characters whose code lies between the two codes. -/
def inRange (lo hi c : Char) : Bool :=
  decide (lo.toNat ≤ c.toNat) && decide (c.toNat ≤ hi.toNat)

/-- Regular expressions over character classes. -/
inductive RegExp where
  | never
  | empty
  | cls (p : Char → Bool)
  | seq (a b : RegExp)
  | alt (a b : RegExp)
  | star (a : RegExp)

namespace RegExp

/-- Whether the expression matches the empty input. -/
def nullable : RegExp → Bool
  | never => false
  | empty => true
  | cls _ => false
  | seq a b => nullable a && nullable b
  | alt a b => nullable a || nullable b
  | star _ => true

/-- The expression for what may follow the character `c`. -/
def deriv (c : Char) : RegExp → RegExp
  | never => never
  | empty => never
  | cls p => if p c then empty else never
  | seq a b => if nullable a then alt (seq (deriv c a) b) (deriv c b) else seq (deriv c a) b
  | alt a b => alt (deriv c a) (deriv c b)
  | star a => seq (deriv c a) (star a)

/-- The quantifier `+`. -/
def oneOrMore (a : RegExp) : RegExp := seq a (star a)

/-- The quantifier `?`. -/
def optional (a : RegExp) : RegExp := alt a empty

/-- The quantifier `{n,}`. -/
def atLeast : Nat → RegExp → RegExp
  | 0, a => star a
  | n + 1, a => seq a (atLeast n a)

/-- The method `test` of an expression anchored with `^` and `$`: the whole input has to
match. -/
def test (r : RegExp) (s : String) : Bool :=
  nullable (s.data.foldl (fun r c => deriv c r) r)

end RegExp

/-- The constant `emailRegex` of `ETEASApp.validateField`, written `^[^\s@]+@[^\s@]+\.[^\s@]+$`
in the source. -/
def ETEASApp.emailRegex : RegExp :=
  .seq (.oneOrMore (.cls (fun c => !(isWhiteSpace c || c == '@'))))
    (.seq (.cls (fun c => c == '@'))
      (.seq (.oneOrMore (.cls (fun c => !(isWhiteSpace c || c == '@'))))
        (.seq (.cls (fun c => c == '.'))
          (.oneOrMore (.cls (fun c => !(isWhiteSpace c || c == '@')))))))

/-- The constant `phoneRegex` of `ETEASApp.validateField`, written `^[\+]?[0-9\s\-\(\)]{10,}$`
in the source. -/
def ETEASApp.phoneRegex : RegExp :=
  .seq (.optional (.cls (fun c => c == '+')))
    (.atLeast 10 (.cls (fun c =>
      inRange '0' '9' c || isWhiteSpace c || c == '-' || c == '(' || c == ')')))

/-- Validate individual field (`main.js`): three independent tests, each of which can set
`isValid` to false. -/
def ETEASApp.validateField (input : Field) : Bool :=
  let value := trim input.value
  let isValid := true
  let isValid := if input.required && decide (value = "") then false else isValid
  let isValid :=
    if decide (input.type = "email") && decide (value ≠ "") then
      if !RegExp.test ETEASApp.emailRegex value then false else isValid
    else isValid
  let isValid :=
    if decide (input.type = "tel") && decide (value ≠ "") then
      if !RegExp.test ETEASApp.phoneRegex value then false else isValid
    else isValid
  isValid

/-- The constant `emailRegex` of `ContactForm.validateField`, written
`^[^\s@]+@[^\s@]+\.[^\s@]+$` in the source. -/
def ContactForm.emailRegex : RegExp :=
  .seq (.oneOrMore (.cls (fun c => !(isWhiteSpace c || c == '@'))))
    (.seq (.cls (fun c => c == '@'))
      (.seq (.oneOrMore (.cls (fun c => !(isWhiteSpace c || c == '@'))))
        (.seq (.cls (fun c => c == '.'))
          (.oneOrMore (.cls (fun c => !(isWhiteSpace c || c == '@')))))))

/-- The constant `phoneRegex` of `ContactForm.validateField`, written
`^[\+]?[\d\s\-\(\)]{10,}$` in the source. -/
def ContactForm.phoneRegex : RegExp :=
  .seq (.optional (.cls (fun c => c == '+')))
    (.atLeast 10 (.cls (fun c =>
      isDigit c || isWhiteSpace c || c == '-' || c == '(' || c == ')')))

/-- Validate a field of the contact form (`contact.js`): a chain of `else if`, in which the
first test that applies decides. -/
def ContactForm.validateField (field : Field) : Bool :=
  let value := trim field.value
  if field.required && decide (value = "") then false
  else if decide (field.type = "email") && decide (value ≠ "") then
    if !RegExp.test ContactForm.emailRegex value then false else true
  else if decide (field.type = "tel") && decide (value ≠ "") then
    if !RegExp.test ContactForm.phoneRegex value then false else true
  else if decide (field.type = "checkbox") && field.required && !field.checked then false
  else if decide (field.id = "message") && decide (value ≠ "")
      && decide (jsLength value < 20) then false
  else true

end Forms

namespace ServiceWorker

/-! ## Lemmas on the string primitives -/

theorem startsWith_iff (s pattern : String) :
    startsWith s pattern = true ↔ pattern.data <+: s.data := by
  unfold startsWith
  exact List.isPrefixOf_iff_prefix

theorem shouldUseNetworkFirst_iff (pathname : String) :
    shouldUseNetworkFirst pathname = true ↔
      ∃ pattern ∈ ["/contact.html", "/api/", "/_netlify/"], pattern.data <+: pathname.data := by
  unfold shouldUseNetworkFirst NETWORK_FIRST
  rw [List.any_eq_true]
  constructor
  · rintro ⟨pattern, hmem, hstart⟩
    exact ⟨pattern, hmem, (startsWith_iff _ _).1 hstart⟩
  · rintro ⟨pattern, hmem, hpre⟩
    exact ⟨pattern, hmem, (startsWith_iff _ _).2 hpre⟩

theorem matchDotAlternativesEnd_iff (alternatives : List String) (rest : List Char) :
    matchDotAlternativesEnd alternatives rest = true ↔
      ∃ a ∈ alternatives, rest = '.' :: a.data := by
  cases rest with
  | nil => simp [matchDotAlternativesEnd]
  | cons c tail =>
    simp only [matchDotAlternativesEnd, Bool.and_eq_true, beq_iff_eq, List.any_eq_true,
      decide_eq_true_eq, List.cons.injEq]
    constructor
    · rintro ⟨hc, a, ha, ht⟩
      exact ⟨a, ha, hc, ht⟩
    · rintro ⟨a, ha, hc, ht⟩
      exact ⟨hc, a, ha, ht⟩

theorem regexTest_iff (alternatives : List String) (s : String) :
    regexTest alternatives s = true ↔
      ∃ a ∈ alternatives, ('.' :: a.data) <:+ s.data := by
  unfold regexTest
  rw [List.any_eq_true]
  constructor
  · rintro ⟨rest, hrest, hmatch⟩
    obtain ⟨a, ha, heq⟩ := (matchDotAlternativesEnd_iff _ _).1 hmatch
    exact ⟨a, ha, heq ▸ (List.mem_tails _ _).1 hrest⟩
  · rintro ⟨a, ha, hsuf⟩
    exact ⟨'.' :: a.data, (List.mem_tails _ _).2 hsuf,
      (matchDotAlternativesEnd_iff _ _).2 ⟨a, ha, rfl⟩⟩

theorem isStaticAsset_iff (pathname : String) :
    isStaticAsset pathname = true ↔
      ∃ ext ∈ ["css", "js", "jpg", "jpeg", "png", "gif", "webp", "svg", "woff", "woff2",
        "ttf", "eot", "ico"], ('.' :: ext.data) <:+ pathname.data := by
  unfold isStaticAsset STATIC_ALTERNATIVES
  exact regexTest_iff _ _

/-! ## Lemmas on the executors -/

theorem networkFirst_calls (fetch : Request → Settled Response) (caches : CacheStorage)
    (request : Request) : (networkFirst fetch caches request).calls = [.networkFirst] := by
  unfold networkFirst
  split
  · split <;> rfl
  · split <;> rfl

theorem cacheFirst_calls (fetch : Request → Settled Response) (caches : CacheStorage)
    (request : Request) : (cacheFirst fetch caches request).calls = [.cacheFirst] := by
  unfold cacheFirst
  split
  · rfl
  · split
    · split <;> rfl
    · rfl

theorem staleWhileRevalidate_calls (fetch : Request → Settled Response)
    (caches : CacheStorage) (request : Request) :
    (staleWhileRevalidate fetch caches request).calls = [.staleWhileRevalidate] := by
  unfold staleWhileRevalidate
  dsimp only
  split <;> rfl

theorem staleWhileRevalidate_resolves (fetch : Request → Settled Response)
    (caches : CacheStorage) (request : Request) :
    ∃ v, (staleWhileRevalidate fetch caches request).result = .resolved v := by
  unfold staleWhileRevalidate
  dsimp only
  split
  · exact ⟨_, rfl⟩
  · exact ⟨_, rfl⟩

theorem handleOffline_calls (caches : CacheStorage) (request : Request) :
    (handleOffline caches request).calls = [.handleOffline] := by
  unfold handleOffline
  split
  · rfl
  · split
    · split
      · rfl
      · split <;> rfl
    · rfl

/-- The run of `handleGetRequest` once the executor's run `attempt` is known. -/
theorem handleGetRequest_calls_of (attempt : Run) (request : Request)
    (s : Fn) (h : attempt.calls = [s]) :
    (match attempt.result with
      | .resolved _ => attempt
      | .rejected _ =>
        (⟨(handleOffline attempt.caches request).result,
          (handleOffline attempt.caches request).caches,
          attempt.fetches ++ (handleOffline attempt.caches request).fetches,
          attempt.calls ++ (handleOffline attempt.caches request).calls⟩ : Run)).calls = [s]
    ∨ (match attempt.result with
      | .resolved _ => attempt
      | .rejected _ =>
        (⟨(handleOffline attempt.caches request).result,
          (handleOffline attempt.caches request).caches,
          attempt.fetches ++ (handleOffline attempt.caches request).fetches,
          attempt.calls ++ (handleOffline attempt.caches request).calls⟩ : Run)).calls
      = [s, .handleOffline] := by
  cases hres : attempt.result with
  | resolved v => left; simpa using h
  | rejected e => right; simp [h, handleOffline_calls]

theorem handleGetRequest_calls (fetch : Request → Settled Response) (caches : CacheStorage)
    (request : Request) :
    let s : Fn :=
      if shouldUseNetworkFirst request.pathname then .networkFirst
      else if isStaticAsset request.pathname then .cacheFirst
      else .staleWhileRevalidate
    (handleGetRequest fetch caches request).calls = [s] ∨
      (handleGetRequest fetch caches request).calls = [s, .handleOffline] := by
  intro s
  unfold handleGetRequest
  dsimp only
  by_cases hnf : shouldUseNetworkFirst request.pathname = true
  · have hs : s = .networkFirst := by simp [s, hnf]
    rw [hs, if_pos hnf]
    exact handleGetRequest_calls_of _ request _ (networkFirst_calls _ _ _)
  · by_cases hst : isStaticAsset request.pathname = true
    · have hs : s = .cacheFirst := by simp [s, hnf, hst]
      rw [hs, if_neg hnf, if_pos hst]
      exact handleGetRequest_calls_of _ request _ (cacheFirst_calls _ _ _)
    · have hs : s = .staleWhileRevalidate := by simp [s, hnf, hst]
      rw [hs, if_neg hnf, if_neg hst]
      exact handleGetRequest_calls_of _ request _ (staleWhileRevalidate_calls _ _ _)

theorem handleGetRequest_head (fetch : Request → Settled Response) (caches : CacheStorage)
    (request : Request) :
    (handleGetRequest fetch caches request).calls.head? =
      some (if shouldUseNetworkFirst request.pathname then Fn.networkFirst
        else if isStaticAsset request.pathname then Fn.cacheFirst
        else Fn.staleWhileRevalidate) := by
  rcases handleGetRequest_calls fetch caches request with h | h <;> rw [h] <;> rfl

/-! ## Lemmas on the cache storage -/

theorem entriesMatch_append_of_none (l₁ l₂ : Cache) (url : String)
    (h : entriesMatch l₁ url = none) :
    entriesMatch (l₁ ++ l₂) url = entriesMatch l₂ url := by
  induction l₁ with
  | nil => rfl
  | cons e rest ih =>
    obtain ⟨key, response⟩ := e
    by_cases hk : key = url
    · simp [entriesMatch, hk] at h
    · simp only [entriesMatch, if_neg hk] at h
      simp only [List.cons_append, entriesMatch, if_neg hk]
      exact ih h

theorem entriesMatch_filter_ne (entries : Cache) (url : String) :
    entriesMatch (entries.filter (fun e => decide (e.1 ≠ url))) url = none := by
  induction entries with
  | nil => rfl
  | cons e rest ih =>
    obtain ⟨key, response⟩ := e
    by_cases hk : key = url
    · simpa [List.filter, hk] using ih
    · simp only [List.filter, ne_eq, hk, not_false_eq_true, decide_True, entriesMatch, if_neg hk]
      exact ih

theorem entriesMatch_entriesPut_self (entries : Cache) (url : String) (response : Response) :
    entriesMatch (entriesPut entries url response) url = some response := by
  unfold entriesPut
  rw [entriesMatch_append_of_none _ _ _ (entriesMatch_filter_ne entries url)]
  simp [entriesMatch]

theorem cachesHas_cachesOpen (caches : CacheStorage) (name : String) :
    cachesHas (cachesOpen caches name) name = true := by
  unfold cachesOpen
  by_cases h : cachesHas caches name = true
  · rw [if_pos h]; exact h
  · rw [if_neg h]
    simp [cachesHas]

theorem cachesOpen_of_has (caches : CacheStorage) (name : String)
    (h : cachesHas caches name = true) : cachesOpen caches name = caches := by
  unfold cachesOpen
  rw [if_pos h]

theorem cacheMatch_append_empty (caches : CacheStorage) (name other url : String) :
    cacheMatch (caches ++ [(name, [])]) other url = cacheMatch caches other url := by
  induction caches with
  | nil =>
    by_cases hn : name = other <;> simp [cacheMatch, entriesMatch, hn]
  | cons p rest ih =>
    obtain ⟨n, entries⟩ := p
    by_cases hn : n = other
    · simp [cacheMatch, hn]
    · simp only [List.cons_append, cacheMatch, if_neg hn]
      exact ih

theorem cacheMatch_cachesOpen (caches : CacheStorage) (name other url : String) :
    cacheMatch (cachesOpen caches name) other url = cacheMatch caches other url := by
  unfold cachesOpen
  split
  · rfl
  · exact cacheMatch_append_empty caches name other url

theorem cachesMatch_append_empty (caches : CacheStorage) (name url : String) :
    cachesMatch (caches ++ [(name, [])]) url = cachesMatch caches url := by
  induction caches with
  | nil => simp [cachesMatch, entriesMatch]
  | cons p rest ih =>
    obtain ⟨n, entries⟩ := p
    cases hm : entriesMatch entries url with
    | some r => simp [cachesMatch, hm]
    | none => simpa [cachesMatch, hm] using ih

theorem cachesMatch_cachesOpen (caches : CacheStorage) (name url : String) :
    cachesMatch (cachesOpen caches name) url = cachesMatch caches url := by
  unfold cachesOpen
  split
  · rfl
  · exact cachesMatch_append_empty caches name url

theorem cachesMatch_eq_none_iff (caches : CacheStorage) (url : String) :
    cachesMatch caches url = none ↔ ∀ p ∈ caches, entriesMatch p.2 url = none := by
  induction caches with
  | nil => simp [cachesMatch]
  | cons p rest ih =>
    obtain ⟨n, entries⟩ := p
    cases hm : entriesMatch entries url with
    | some r => simp [cachesMatch, hm]
    | none => simp [cachesMatch, hm, ih]

theorem cacheMatch_cacheWrite_self (caches : CacheStorage) (name url : String)
    (response : Response) (h : cachesHas caches name = true) :
    cacheMatch (cacheWrite caches name url response) name url = some response := by
  induction caches with
  | nil => simp [cachesHas] at h
  | cons p rest ih =>
    obtain ⟨n, entries⟩ := p
    by_cases hn : n = name
    · simp [cacheWrite, cacheMatch, hn, entriesMatch_entriesPut_self]
    · have hrest : cachesHas rest name = true := by
        simpa [cachesHas, hn] using h
      simp only [cacheWrite, if_neg hn, cacheMatch]
      exact ih hrest

theorem cachesMatch_cacheWrite_of_none (caches : CacheStorage) (name url : String)
    (response : Response) (hnone : cachesMatch caches url = none)
    (h : cachesHas caches name = true) :
    cachesMatch (cacheWrite caches name url response) url = some response := by
  induction caches with
  | nil => simp [cachesHas] at h
  | cons p rest ih =>
    obtain ⟨n, entries⟩ := p
    have hentries : entriesMatch entries url = none := by
      cases hm : entriesMatch entries url with
      | none => rfl
      | some r => simp [cachesMatch, hm] at hnone
    have hrestnone : cachesMatch rest url = none := by
      simpa [cachesMatch, hentries] using hnone
    by_cases hn : n = name
    · simp [cacheWrite, cachesMatch, hn, entriesMatch_entriesPut_self]
    · have hrest : cachesHas rest name = true := by
        simpa [cachesHas, hn] using h
      simp only [cacheWrite, if_neg hn, cachesMatch, hentries]
      exact ih hrestnone hrest

/-! ## Lemmas on the offline fallback -/

theorem includes_iff (s part : String) :
    includes s part = true ↔ part.data <:+: s.data := by
  unfold includes
  rw [List.any_eq_true, List.infix_iff_prefix_suffix]
  constructor
  · rintro ⟨rest, hrest, hpre⟩
    exact ⟨rest, List.isPrefixOf_iff_prefix.1 hpre, (List.mem_tails _ _).1 hrest⟩
  · rintro ⟨rest, hpre, hsuf⟩
    exact ⟨rest, (List.mem_tails _ _).2 hsuf, List.isPrefixOf_iff_prefix.2 hpre⟩

theorem acceptsHtml_iff (request : Request) :
    acceptsHtml request = true ↔
      ∃ accept, request.accept = some accept ∧ "text/html".data <:+: accept.data := by
  unfold acceptsHtml
  cases h : request.accept with
  | none => simp
  | some accept => simp [includes_iff]

/-! ## Lemmas on stale-while-revalidate -/

theorem staleWhileRevalidate_fetches (fetch : Request → Settled Response)
    (caches : CacheStorage) (request : Request) :
    (staleWhileRevalidate fetch caches request).fetches = [request] := by
  unfold staleWhileRevalidate
  dsimp only
  split <;> rfl

theorem staleWhileRevalidate_of_hit (fetch : Request → Settled Response)
    (caches : CacheStorage) (request : Request) (cached : Response)
    (hhit : cacheMatch caches CACHE_NAME request.url = some cached) :
    (staleWhileRevalidate fetch caches request).result = .resolved (some cached) := by
  unfold staleWhileRevalidate
  simp only [cacheMatch_cachesOpen, hhit]

theorem staleWhileRevalidate_caches_of_ok (fetch : Request → Settled Response)
    (caches : CacheStorage) (request : Request) (n : Response)
    (hfetch : fetch request = .resolved n) (hok : n.ok = true) :
    (staleWhileRevalidate fetch caches request).caches
      = cachePut (cachesOpen caches CACHE_NAME) CACHE_NAME request n := by
  unfold staleWhileRevalidate
  rw [hfetch]
  simp only [hok, if_true]
  split <;> rfl

/-! ## Lemmas on the eviction -/

/-- The conditional deletion of the activate listener, run over any list of names. -/
theorem evict_foldl (names : List String) (run : WorkerRun) :
    (names.foldl
      (fun run cacheName =>
        if cacheName ≠ CACHE_NAME ∧ cacheName ≠ OFFLINE_CACHE_NAME then
          deleteStep run cacheName
        else run) run).caches
      = run.caches.filter (fun p =>
          decide (¬ ((p.1 ≠ CACHE_NAME ∧ p.1 ≠ OFFLINE_CACHE_NAME) ∧ p.1 ∈ names))) ∧
    (names.foldl
      (fun run cacheName =>
        if cacheName ≠ CACHE_NAME ∧ cacheName ≠ OFFLINE_CACHE_NAME then
          deleteStep run cacheName
        else run) run).effects
      = run.effects ++ (names.filter (fun name =>
          decide (name ≠ CACHE_NAME ∧ name ≠ OFFLINE_CACHE_NAME))).map Effect.cacheDelete := by
  induction names generalizing run with
  | nil => simp
  | cons name rest ih =>
    rw [List.foldl_cons]
    by_cases hold : name ≠ CACHE_NAME ∧ name ≠ OFFLINE_CACHE_NAME
    · rw [if_pos hold]
      obtain ⟨hc, he⟩ := ih (deleteStep run name)
      rw [hc, he]
      constructor
      · simp only [deleteStep, cachesDelete, List.filter_filter]
        apply List.filter_congr
        intro p _
        by_cases hp : p.1 = name
        · simp [hp, hold]
        · simp [hp]
      · simp [deleteStep, List.filter_cons, hold]
    · rw [if_neg hold]
      obtain ⟨hc, he⟩ := ih run
      rw [hc, he]
      constructor
      · apply List.filter_congr
        intro p _
        by_cases hp : p.1 = name
        · have : ¬ (p.1 ≠ CACHE_NAME ∧ p.1 ≠ OFFLINE_CACHE_NAME) := by rw [hp]; exact hold
          simp [this]
        · simp [hp]
      · simp [List.filter_cons, hold]

/-- Filtering the names first and deleting every one left is the conditional deletion. -/
theorem filter_then_delete_foldl (names : List String) (run : WorkerRun) :
    (names.filter (fun name =>
        decide (name ≠ CACHE_NAME ∧ name ≠ OFFLINE_CACHE_NAME))).foldl
      (fun run name => deleteStep run name) run
      = names.foldl
          (fun run cacheName =>
            if cacheName ≠ CACHE_NAME ∧ cacheName ≠ OFFLINE_CACHE_NAME then
              deleteStep run cacheName
            else run) run := by
  induction names generalizing run with
  | nil => rfl
  | cons name rest ih =>
    by_cases hold : name ≠ CACHE_NAME ∧ name ≠ OFFLINE_CACHE_NAME
    · rw [List.filter_cons, if_pos (by simpa using hold), List.foldl_cons, List.foldl_cons,
        if_pos hold]
      exact ih _
    · rw [List.filter_cons, if_neg (by simpa using hold), List.foldl_cons, if_neg hold]
      exact ih _

theorem activateListener_caches (caches : CacheStorage) :
    (activateListener caches).caches
      = caches.filter (fun p => decide (p.1 = CACHE_NAME ∨ p.1 = OFFLINE_CACHE_NAME)) := by
  unfold activateListener
  dsimp only
  rw [(evict_foldl (cachesKeys caches) ⟨caches, []⟩).1]
  apply List.filter_congr
  intro p hp
  have hmem : p.1 ∈ cachesKeys caches := List.mem_map_of_mem Prod.fst hp
  by_cases h1 : p.1 = CACHE_NAME
  · simp [h1]
  · by_cases h2 : p.1 = OFFLINE_CACHE_NAME
    · simp [h2]
    · simp [h1, h2, hmem]

theorem activateListener_effects (caches : CacheStorage) :
    (activateListener caches).effects
      = ((cachesKeys caches).filter (fun name =>
          decide (name ≠ CACHE_NAME ∧ name ≠ OFFLINE_CACHE_NAME))).map Effect.cacheDelete
        ++ [.clientsClaim] := by
  unfold activateListener
  dsimp only
  rw [(evict_foldl (cachesKeys caches) ⟨caches, []⟩).2]
  simp

theorem cleanOldCaches_eq (caches : CacheStorage) :
    cleanOldCaches caches =
      ⟨caches.filter (fun p => decide (p.1 = CACHE_NAME ∨ p.1 = OFFLINE_CACHE_NAME)),
        ((cachesKeys caches).filter (fun name =>
          decide (name ≠ CACHE_NAME ∧ name ≠ OFFLINE_CACHE_NAME))).map Effect.cacheDelete⟩ := by
  have hc := activateListener_caches caches
  unfold activateListener at hc
  dsimp only at hc
  have he := (evict_foldl (cachesKeys caches) ⟨caches, []⟩).2
  unfold cleanOldCaches
  dsimp only
  rw [filter_then_delete_foldl]
  cases hrun : (cachesKeys caches).foldl
      (fun run cacheName =>
        if cacheName ≠ CACHE_NAME ∧ cacheName ≠ OFFLINE_CACHE_NAME then
          deleteStep run cacheName
        else run) (⟨caches, []⟩ : WorkerRun) with
  | mk c e =>
    rw [hrun] at hc he
    simp only [List.nil_append] at he
    simp only at hc
    rw [hc, he]

theorem cacheMatch_filter_keep (caches : CacheStorage) (keep : String → Bool)
    (name url : String) (hkeep : keep name = true) :
    cacheMatch (caches.filter (fun p => keep p.1)) name url = cacheMatch caches name url := by
  induction caches with
  | nil => rfl
  | cons p rest ih =>
    obtain ⟨n, entries⟩ := p
    by_cases hn : n = name
    · subst hn
      simp [List.filter_cons, hkeep, cacheMatch]
    · by_cases hk : keep n = true
      · simp only [List.filter_cons, hk, if_true, cacheMatch, if_neg hn]
        exact ih
      · simp only [List.filter_cons, hk, cacheMatch, if_neg hn]
        exact ih

/-! ## Lemmas on request handling -/

theorem handleOffline_responds (caches : CacheStorage) (request : Request) :
    ∃ response, (handleOffline caches request).result = .resolved (some response) := by
  unfold handleOffline
  split
  · exact ⟨_, rfl⟩
  · split
    · split
      · exact ⟨_, rfl⟩
      · split <;> exact ⟨_, rfl⟩
    · exact ⟨_, rfl⟩

theorem networkFirst_fetches (fetch : Request → Settled Response) (caches : CacheStorage)
    (request : Request) : (networkFirst fetch caches request).fetches = [request] := by
  unfold networkFirst
  split
  · split <;> rfl
  · split <;> rfl

theorem networkFirst_of_rejected (fetch : Request → Settled Response)
    (caches : CacheStorage) (request : Request) (error : String)
    (h : (networkFirst fetch caches request).result = .rejected error) :
    cachesMatch caches request.url = none ∧
      (networkFirst fetch caches request).caches = caches ∧
      fetch request = .rejected error := by
  unfold networkFirst at h ⊢
  cases hf : fetch request with
  | resolved n =>
    rw [hf] at h
    by_cases hok : n.ok = true
    · simp [hok] at h
    · simp [hok] at h
  | rejected e =>
    rw [hf] at h
    cases hm : cachesMatch caches request.url with
    | some c => simp [hm] at h
    | none =>
      simp only [hm] at h ⊢
      injection h with h
      exact ⟨trivial, trivial, by rw [h]⟩

theorem cacheFirst_of_rejected (fetch : Request → Settled Response)
    (caches : CacheStorage) (request : Request) (error : String)
    (h : (cacheFirst fetch caches request).result = .rejected error) :
    cachesMatch caches request.url = none ∧
      (cacheFirst fetch caches request).caches = caches ∧
      fetch request = .rejected error := by
  unfold cacheFirst at h ⊢
  cases hm : cachesMatch caches request.url with
  | some c => simp [hm] at h
  | none =>
    cases hf : fetch request with
    | resolved n =>
      by_cases hok : n.ok = true
      · simp [hm, hf, hok] at h
      · simp [hm, hf, hok] at h
    | rejected e =>
      simp only [hm, hf] at h ⊢
      injection h with h
      exact ⟨trivial, trivial, by rw [h]⟩

theorem handleGetRequest_of_resolved (fetch : Request → Settled Response)
    (caches : CacheStorage) (request : Request) (v : Option Response)
    (h : (if shouldUseNetworkFirst request.pathname then networkFirst fetch caches request
      else if isStaticAsset request.pathname then cacheFirst fetch caches request
      else staleWhileRevalidate fetch caches request).result = .resolved v) :
    handleGetRequest fetch caches request
      = (if shouldUseNetworkFirst request.pathname then networkFirst fetch caches request
        else if isStaticAsset request.pathname then cacheFirst fetch caches request
        else staleWhileRevalidate fetch caches request) := by
  unfold handleGetRequest
  simp only [h]

theorem handleGetRequest_of_rejected (fetch : Request → Settled Response)
    (caches : CacheStorage) (request : Request) (error : String)
    (h : (if shouldUseNetworkFirst request.pathname then networkFirst fetch caches request
      else if isStaticAsset request.pathname then cacheFirst fetch caches request
      else staleWhileRevalidate fetch caches request).result = .rejected error) :
    cachesMatch caches request.url = none ∧
    fetch request = .rejected error ∧
    staleWhileRevalidate fetch caches request
      ≠ (if shouldUseNetworkFirst request.pathname then networkFirst fetch caches request
        else if isStaticAsset request.pathname then cacheFirst fetch caches request
        else staleWhileRevalidate fetch caches request) ∧
    handleGetRequest fetch caches request
      = ⟨(handleOffline caches request).result, caches, [request],
          (if shouldUseNetworkFirst request.pathname then [Fn.networkFirst, Fn.handleOffline]
            else [Fn.cacheFirst, Fn.handleOffline])⟩ := by
  have hoff : ∀ c : CacheStorage, (handleOffline c request).caches = c ∧
      (handleOffline c request).fetches = [] := by
    intro c
    unfold handleOffline
    split
    · exact ⟨rfl, rfl⟩
    · split
      · split
        · exact ⟨rfl, rfl⟩
        · split <;> exact ⟨rfl, rfl⟩
      · exact ⟨rfl, rfl⟩
  obtain ⟨w, hw⟩ := staleWhileRevalidate_resolves fetch caches request
  by_cases hnf : shouldUseNetworkFirst request.pathname = true
  · rw [if_pos hnf] at h
    obtain ⟨hm, hc, hf⟩ := networkFirst_of_rejected fetch caches request error h
    refine ⟨hm, hf, ?_, ?_⟩
    · rw [if_pos hnf]
      intro heq
      rw [← heq, hw] at h
      cases h
    · unfold handleGetRequest
      simp only [hnf, if_true, h, hc, (hoff caches).1, (hoff caches).2,
        networkFirst_fetches, networkFirst_calls, handleOffline_calls, List.append_nil]
      rfl
  · by_cases hst : isStaticAsset request.pathname = true
    · rw [if_neg hnf, if_pos hst] at h
      obtain ⟨hm, hc, hf⟩ := cacheFirst_of_rejected fetch caches request error h
      have hfetches : (cacheFirst fetch caches request).fetches = [request] := by
        unfold cacheFirst
        rw [hm, hf]
      refine ⟨hm, hf, ?_, ?_⟩
      · rw [if_neg hnf, if_pos hst]
        intro heq
        rw [← heq, hw] at h
        cases h
      · rw [if_neg hnf]
        unfold handleGetRequest
        dsimp only
        rw [if_neg hnf, if_pos hst]
        simp only [h, hc, (hoff caches).1, (hoff caches).2, hfetches, cacheFirst_calls,
          handleOffline_calls, List.append_nil]
        rfl
    · rw [if_neg hnf, if_neg hst, hw] at h
      cases h

/-! ## Lemmas on the frame of a cache write -/

theorem entriesMatch_filter_other (entries : Cache) (url other : String)
    (h : other ≠ url) :
    entriesMatch (entries.filter (fun e => decide (e.1 ≠ url))) other
      = entriesMatch entries other := by
  induction entries with
  | nil => rfl
  | cons e rest ih =>
    obtain ⟨key, response⟩ := e
    by_cases hk : key = url
    · have hko : ¬ key = other := fun hko => h (hko ▸ hk)
      have hdrop : ((key, response) :: rest).filter (fun e => decide (e.1 ≠ url))
          = rest.filter (fun e => decide (e.1 ≠ url)) := by
        simp [List.filter_cons, hk]
      rw [hdrop, ih]
      simp only [entriesMatch, if_neg hko]
    · have hkeep : ((key, response) :: rest).filter (fun e => decide (e.1 ≠ url))
          = (key, response) :: rest.filter (fun e => decide (e.1 ≠ url)) := by
        simp [List.filter_cons, hk]
      rw [hkeep]
      by_cases hko : key = other
      · simp only [entriesMatch, if_pos hko]
      · simp only [entriesMatch, if_neg hko]
        exact ih

theorem entriesMatch_append_single_other (entries : Cache) (url other : String)
    (response : Response) (h : other ≠ url) :
    entriesMatch (entries ++ [(url, response)]) other = entriesMatch entries other := by
  induction entries with
  | nil =>
    have hne : ¬ url = other := fun hh => h hh.symm
    simp only [List.nil_append, entriesMatch, if_neg hne]
  | cons e rest ih =>
    obtain ⟨key, r⟩ := e
    by_cases hko : key = other
    · simp [entriesMatch, hko]
    · simp only [List.cons_append, entriesMatch, if_neg hko]
      exact ih

theorem entriesMatch_entriesPut_other (entries : Cache) (url other : String)
    (response : Response) (h : other ≠ url) :
    entriesMatch (entriesPut entries url response) other = entriesMatch entries other := by
  unfold entriesPut
  rw [entriesMatch_append_single_other _ _ _ _ h, entriesMatch_filter_other _ _ _ h]

theorem cacheMatch_cacheWrite_other (caches : CacheStorage) (name url : String)
    (response : Response) (other otherUrl : String)
    (h : other ≠ name ∨ otherUrl ≠ url) :
    cacheMatch (cacheWrite caches name url response) other otherUrl
      = cacheMatch caches other otherUrl := by
  induction caches with
  | nil => rfl
  | cons p rest ih =>
    obtain ⟨n, entries⟩ := p
    by_cases hn : n = name
    · by_cases hno : n = other
      · have hu : otherUrl ≠ url := by
          rcases h with h | h
          · exact absurd (hno.symm.trans hn) h
          · exact h
        simp only [cacheWrite, if_pos hn, cacheMatch, if_pos hno]
        exact entriesMatch_entriesPut_other _ _ _ _ hu
      · simp only [cacheWrite, if_pos hn, cacheMatch, if_neg hno]
        exact ih
    · by_cases hno : n = other
      · simp only [cacheWrite, if_neg hn, cacheMatch, if_pos hno]
      · simp only [cacheWrite, if_neg hn, cacheMatch, if_neg hno]
        exact ih

theorem cacheWrite_filter_other (caches : CacheStorage) (name url : String)
    (response : Response) :
    (cacheWrite caches name url response).filter (fun p => decide (p.1 ≠ name))
      = caches.filter (fun p => decide (p.1 ≠ name)) := by
  induction caches with
  | nil => rfl
  | cons p rest ih =>
    obtain ⟨n, entries⟩ := p
    by_cases hn : n = name
    · have hstep : cacheWrite ((n, entries) :: rest) name url response
          = (n, entriesPut entries url response) :: cacheWrite rest name url response := by
        simp only [cacheWrite, if_pos hn]
      rw [hstep, List.filter_cons, List.filter_cons, ih]
      simp [hn]
    · have hstep : cacheWrite ((n, entries) :: rest) name url response
          = (n, entries) :: cacheWrite rest name url response := by
        simp only [cacheWrite, if_neg hn]
      rw [hstep, List.filter_cons, List.filter_cons, ih]

theorem cachesOpen_filter_other (caches : CacheStorage) (name : String) :
    (cachesOpen caches name).filter (fun p => decide (p.1 ≠ name))
      = caches.filter (fun p => decide (p.1 ≠ name)) := by
  unfold cachesOpen
  split
  · rfl
  · simp

theorem cachePut_of_accepted (caches : CacheStorage) (name : String) (request : Request)
    (response : Response) (h : putAccepts request response = true) :
    cachePut caches name request response = cacheWrite caches name request.url response := by
  unfold cachePut
  rw [if_pos h]

theorem cachePut_of_refused (caches : CacheStorage) (name : String) (request : Request)
    (response : Response) (h : putAccepts request response = false) :
    cachePut caches name request response = caches := by
  unfold cachePut
  simp [h]

theorem cacheMatch_cachePut_other (caches : CacheStorage) (name : String)
    (request : Request) (response : Response) (other otherUrl : String)
    (h : other ≠ name ∨ otherUrl ≠ request.url) :
    cacheMatch (cachePut caches name request response) other otherUrl
      = cacheMatch caches other otherUrl := by
  unfold cachePut
  split
  · exact cacheMatch_cacheWrite_other caches name request.url response other otherUrl h
  · rfl

theorem cachePut_filter_other (caches : CacheStorage) (name : String) (request : Request)
    (response : Response) :
    (cachePut caches name request response).filter (fun p => decide (p.1 ≠ name))
      = caches.filter (fun p => decide (p.1 ≠ name)) := by
  unfold cachePut
  split
  · exact cacheWrite_filter_other caches name request.url response
  · rfl

/-- The storage a strategy executor can leave. -/
theorem handleGetRequest_caches_cases (fetch : Request → Settled Response)
    (caches : CacheStorage) (request : Request) :
    (handleGetRequest fetch caches request).caches = caches ∨
    (handleGetRequest fetch caches request).caches = cachesOpen caches CACHE_NAME ∨
    ∃ n, (handleGetRequest fetch caches request).caches
      = cachePut (cachesOpen caches CACHE_NAME) CACHE_NAME request n := by
  have hnf : (networkFirst fetch caches request).caches = caches ∨
      ∃ n, (networkFirst fetch caches request).caches
        = cachePut (cachesOpen caches CACHE_NAME) CACHE_NAME request n := by
    unfold networkFirst
    split
    · split
      · exact Or.inr ⟨_, rfl⟩
      · exact Or.inl rfl
    · split <;> exact Or.inl rfl
  have hcf : (cacheFirst fetch caches request).caches = caches ∨
      ∃ n, (cacheFirst fetch caches request).caches
        = cachePut (cachesOpen caches CACHE_NAME) CACHE_NAME request n := by
    unfold cacheFirst
    split
    · exact Or.inl rfl
    · split
      · split
        · exact Or.inr ⟨_, rfl⟩
        · exact Or.inl rfl
      · exact Or.inl rfl
  have hswr : (staleWhileRevalidate fetch caches request).caches
      = cachesOpen caches CACHE_NAME ∨
      ∃ n, (staleWhileRevalidate fetch caches request).caches
        = cachePut (cachesOpen caches CACHE_NAME) CACHE_NAME request n := by
    cases hf : fetch request with
    | resolved n =>
      by_cases hok : n.ok = true
      · exact Or.inr ⟨n, staleWhileRevalidate_caches_of_ok fetch caches request n hf hok⟩
      · left
        unfold staleWhileRevalidate
        rw [hf]
        simp only [hok]
        split <;> rfl
    | rejected e =>
      left
      unfold staleWhileRevalidate
      rw [hf]
      dsimp only
      split <;> rfl
  cases hres : (if shouldUseNetworkFirst request.pathname then
      networkFirst fetch caches request
      else if isStaticAsset request.pathname then cacheFirst fetch caches request
      else staleWhileRevalidate fetch caches request).result with
  | rejected e =>
    rw [(handleGetRequest_of_rejected fetch caches request e hres).2.2.2]
    exact Or.inl rfl
  | resolved v =>
    rw [handleGetRequest_of_resolved fetch caches request v hres]
    by_cases h1 : shouldUseNetworkFirst request.pathname = true
    · rw [if_pos h1]
      rcases hnf with h | h
      · exact Or.inl h
      · exact Or.inr (Or.inr h)
    · by_cases h2 : isStaticAsset request.pathname = true
      · rw [if_neg h1, if_pos h2]
        rcases hcf with h | h
        · exact Or.inl h
        · exact Or.inr (Or.inr h)
      · rw [if_neg h1, if_neg h2]
        rcases hswr with h | h
        · exact Or.inr (Or.inl h)
        · exact Or.inr (Or.inr h)

/-! ## Lemmas on the background sync and on repeated eviction -/

theorem syncForms_eq (post : Nat → Settled Response) (forms : List Form) (k : Nat) :
    (syncForms post k forms).1 = forms.map (fun form => ("/contact", form.data)) ∧
    (syncForms post k forms).2
      = ((forms.enumFrom k).filter (fun entry =>
          match post entry.1 with
          | .resolved response => response.ok
          | .rejected _ => false)).map (fun entry => entry.2.id) := by
  induction forms generalizing k with
  | nil => exact ⟨rfl, rfl⟩
  | cons form rest ih =>
    obtain ⟨h1, h2⟩ := ih (k + 1)
    cases hp : post k with
    | resolved response =>
      by_cases hok : response.ok = true
      · simp [syncForms, hp, hok, h1, h2, List.enumFrom_cons, List.filter_cons]
      · simp [syncForms, hp, hok, h1, h2, List.enumFrom_cons, List.filter_cons]
    | rejected e =>
      simp [syncForms, hp, h1, h2, List.enumFrom_cons, List.filter_cons]

theorem evicted_keys_not_old (caches : CacheStorage) :
    (cachesKeys (caches.filter
        (fun p => decide (p.1 = CACHE_NAME ∨ p.1 = OFFLINE_CACHE_NAME)))).filter
      (fun name => decide (name ≠ CACHE_NAME ∧ name ≠ OFFLINE_CACHE_NAME)) = [] := by
  rw [List.filter_eq_nil_iff]
  intro name hname
  unfold cachesKeys at hname
  rw [List.mem_map] at hname
  obtain ⟨p, hp, hpn⟩ := hname
  have hk := (List.mem_filter.1 hp).2
  rw [hpn] at hk
  have hk2 : name = CACHE_NAME ∨ name = OFFLINE_CACHE_NAME := by simpa using hk
  rcases hk2 with h | h <;> simp [h]

theorem evicted_filter_again (caches : CacheStorage) :
    (caches.filter (fun p => decide (p.1 = CACHE_NAME ∨ p.1 = OFFLINE_CACHE_NAME))).filter
      (fun p => decide (p.1 = CACHE_NAME ∨ p.1 = OFFLINE_CACHE_NAME))
      = caches.filter (fun p => decide (p.1 = CACHE_NAME ∨ p.1 = OFFLINE_CACHE_NAME)) := by
  rw [List.filter_filter]
  apply List.filter_congr
  intro p _
  simp

/-! ## Lemmas on the promise chain of the activate listener -/

theorem pick_mem (first : Op) (rest : List Op) (choice : Nat) (fallback : Op) :
    pick (first :: rest) choice fallback ∈ first :: rest := by
  induction rest generalizing first choice fallback with
  | nil => cases choice <;> simp [pick]
  | cons second rest ih =>
    cases choice with
    | zero => simp [pick]
    | succ c =>
      simp only [pick]
      exact List.mem_cons_of_mem _ (ih second c first)

theorem settled_slotsPromise (slots : List (Option String)) :
    (slotsPromise slots).settled = decide (countPending slots = 0) := by
  induction slots with
  | nil => rfl
  | cons slot rest ih =>
    cases slot with
    | none => simp [slotsPromise, Async.settled, countPending, ih]
    | some name => simp [slotsPromise, Async.settled, countPending]

theorem pendingOps_slotsPromise_mem (slots : List (Option String)) (op : Op) :
    op ∈ Async.pendingOps (slotsPromise slots) ↔ ∃ name, op = .delete name ∧ some name ∈ slots := by
  induction slots with
  | nil => simp [slotsPromise, Async.pendingOps]
  | cons slot rest ih =>
    cases slot with
    | none =>
      simp only [slotsPromise, Async.pendingOps, List.nil_append, ih, List.mem_cons]
      constructor
      · rintro ⟨name, h1, h2⟩
        exact ⟨name, h1, Or.inr h2⟩
      · rintro ⟨name, h1, h2 | h2⟩
        · cases h2
        · exact ⟨name, h1, h2⟩
    | some first =>
      simp only [slotsPromise, Async.pendingOps, List.singleton_append, List.mem_cons, ih]
      constructor
      · rintro (h | ⟨name, h1, h2⟩)
        · exact ⟨first, h, Or.inl rfl⟩
        · exact ⟨name, h1, Or.inr h2⟩
      · rintro ⟨name, h1, h2 | h2⟩
        · injection h2 with h2
          exact Or.inl (h2 ▸ h1)
        · exact Or.inr ⟨name, h1, h2⟩

theorem pendingOps_slotsPromise_nil (slots : List (Option String))
    (h : countPending slots = 0) : Async.pendingOps (slotsPromise slots) = [] := by
  induction slots with
  | nil => rfl
  | cons slot rest ih =>
    cases slot with
    | none => simpa [slotsPromise, Async.pendingOps] using ih (by simpa [countPending] using h)
    | some name => simp [countPending] at h

theorem launch_slotsPromise (caches : CacheStorage) (slots : List (Option String)) :
    Async.launch caches (slotsPromise slots) = (slotsPromise slots, []) := by
  induction slots with
  | nil => rfl
  | cons slot rest ih =>
    cases slot with
    | none => simp [slotsPromise, Async.launch, ih]
    | some name => simp [slotsPromise, Async.launch, ih]

theorem completeFirst_slotsPromise (name : String) (slots : List (Option String))
    (h : some name ∈ slots) :
    Async.completeFirst (.delete name) (slotsPromise slots)
      = (slotsPromise (clearFirst name slots), true) := by
  induction slots with
  | nil => simp at h
  | cons slot rest ih =>
    cases slot with
    | none =>
      have hrest : some name ∈ rest := by simpa using h
      simp [slotsPromise, Async.completeFirst, clearFirst, ih hrest]
    | some other =>
      by_cases ho : other = name
      · simp [slotsPromise, Async.completeFirst, clearFirst, ho]
      · have hrest : some name ∈ rest := by
          rcases List.mem_cons.1 h with h | h
          · injection h with h
            exact absurd h.symm ho
          · exact h
        simp [slotsPromise, Async.completeFirst, clearFirst, ho, ih hrest]

theorem countPending_clearFirst (name : String) (slots : List (Option String))
    (h : some name ∈ slots) :
    countPending (clearFirst name slots) + 1 = countPending slots := by
  induction slots with
  | nil => simp at h
  | cons slot rest ih =>
    cases slot with
    | none =>
      have hrest : some name ∈ rest := by simpa using h
      simpa [clearFirst, countPending] using ih hrest
    | some other =>
      by_cases ho : other = name
      · simp [clearFirst, countPending, ho]
      · have hrest : some name ∈ rest := by
          rcases List.mem_cons.1 h with h | h
          · injection h with h
            exact absurd h.symm ho
          · exact h
        simp [clearFirst, countPending, ho, ih hrest]

theorem mem_clearFirst_of_ne (name other : String) (slots : List (Option String))
    (h : some other ∈ slots) (hne : other ≠ name) : some other ∈ clearFirst name slots := by
  induction slots with
  | nil => simp at h
  | cons slot rest ih =>
    cases slot with
    | none =>
      have hrest : some other ∈ rest := by simpa using h
      simp [clearFirst, ih hrest]
    | some first =>
      by_cases hf : first = name
      · rcases List.mem_cons.1 h with h | h
        · injection h with h
          exact absurd (h.trans hf) hne
        · simp [clearFirst, hf, h]
      · rcases List.mem_cons.1 h with h | h
        · simp [clearFirst, hf, h]
        · simp [clearFirst, hf, ih h]

theorem mem_of_mem_clearFirst (name other : String) (slots : List (Option String))
    (h : some other ∈ clearFirst name slots) : some other ∈ slots := by
  induction slots with
  | nil => simp [clearFirst] at h
  | cons slot rest ih =>
    cases slot with
    | none =>
      have hrest : some other ∈ clearFirst name rest := by simpa [clearFirst] using h
      exact List.mem_cons_of_mem _ (ih hrest)
    | some first =>
      by_cases hf : first = name
      · have hrest : some other ∈ rest := by simpa [clearFirst, hf] using h
        exact List.mem_cons_of_mem _ hrest
      · simp only [clearFirst, if_neg hf, List.mem_cons] at h
        rcases h with h | h
        · exact List.mem_cons.2 (Or.inl h)
        · exact List.mem_cons_of_mem _ (ih h)

theorem mem_toSlots (names : List String) (name : String) :
    some name ∈ toSlots names ↔
      name ∈ names ∧ (name ≠ CACHE_NAME ∧ name ≠ OFFLINE_CACHE_NAME) := by
  unfold toSlots
  rw [List.mem_map]
  constructor
  · rintro ⟨n, hn, heq⟩
    by_cases hold : n ≠ CACHE_NAME ∧ n ≠ OFFLINE_CACHE_NAME
    · rw [if_pos hold] at heq
      injection heq with heq
      exact heq ▸ ⟨hn, hold⟩
    · rw [if_neg hold] at heq
      cases heq
  · rintro ⟨hn, hold⟩
    exact ⟨name, hn, by rw [if_pos hold]⟩

theorem countPending_toSlots_le (names : List String) :
    countPending (toSlots names) ≤ names.length := by
  induction names with
  | nil => simp [toSlots, countPending]
  | cons name rest ih =>
    unfold toSlots at ih ⊢
    by_cases hold : name ≠ CACHE_NAME ∧ name ≠ OFFLINE_CACHE_NAME
    · simp only [List.map_cons, if_pos hold, countPending, List.length_cons]
      omega
    · simp only [List.map_cons, if_neg hold, countPending, List.length_cons]
      omega

theorem mem_of_countPending_pos (slots : List (Option String)) (h : 0 < countPending slots) :
    ∃ name, some name ∈ slots := by
  induction slots with
  | nil => simp [countPending] at h
  | cons slot rest ih =>
    cases slot with
    | none =>
      obtain ⟨name, hname⟩ := ih (by simpa [countPending] using h)
      exact ⟨name, List.mem_cons_of_mem _ hname⟩
    | some name => exact ⟨name, List.mem_cons_self _ _⟩

theorem not_mem_of_countPending_zero (slots : List (Option String))
    (h : countPending slots = 0) (name : String) : some name ∉ slots := by
  induction slots with
  | nil => simp
  | cons slot rest ih =>
    cases slot with
    | none =>
      have := ih (by simpa [countPending] using h)
      simpa using this
    | some other => simp [countPending] at h

theorem launch_evictCallback (caches current : CacheStorage) :
    (Async.launch current (evictCallback caches)).1 = slotsPromise (toSlots (cachesKeys caches)) ∧
    ∀ op ∈ (Async.launch current (evictCallback caches)).2, op ≠ Op.claim := by
  unfold evictCallback toSlots
  induction cachesKeys caches with
  | nil => simp [Async.allOf, Async.launch, slotsPromise]
  | cons name rest ih =>
    obtain ⟨ih1, ih2⟩ := ih
    by_cases hold : name ≠ CACHE_NAME ∧ name ≠ OFFLINE_CACHE_NAME
    · simp only [List.map_cons, if_pos hold, Async.allOf, Async.launch, slotsPromise, ih1,
        true_and]
      intro op hop
      rcases List.mem_append.1 hop with h | h
      · have : op = Op.delete name := by simpa using h
        rw [this]
        exact fun hh => by cases hh
      · exact ih2 op h
    · simp only [List.map_cons, if_neg hold, Async.allOf, Async.launch, slotsPromise, ih1,
        true_and, List.nil_append]
      exact ih2

theorem launch_claim_chain (caches : CacheStorage) (slots : List (Option String)) :
    Async.launch caches (.chain (slotsPromise slots) claimCallback true)
      = if countPending slots = 0 then (Async.pending Op.claim, [Op.claim])
        else (.chain (slotsPromise slots) claimCallback true, []) := by
  by_cases h : countPending slots = 0
  · rw [if_pos h]
    simp [Async.launch, launch_slotsPromise, settled_slotsPromise, h, Async.keep,
      pendingOps_slotsPromise_nil slots h, Async.wrap, claimCallback]
  · rw [if_neg h]
    simp [Async.launch, launch_slotsPromise, settled_slotsPromise, h]

theorem launch_after_keys (caches : CacheStorage) :
    Async.launch caches (.chain (.chain .resolved evictCallback true) claimCallback true)
      = if countPending (toSlots (cachesKeys caches)) = 0 then
          (Async.pending Op.claim, (Async.launch caches (evictCallback caches)).2 ++ [Op.claim])
        else
          (.chain (slotsPromise (toSlots (cachesKeys caches))) claimCallback true,
            (Async.launch caches (evictCallback caches)).2) := by
  have hfirst := (launch_evictCallback caches caches).1
  by_cases h : countPending (toSlots (cachesKeys caches)) = 0
  · rw [if_pos h]
    simp [Async.launch, Async.settled, Async.keep, Async.pendingOps, Async.wrap, hfirst,
      settled_slotsPromise, h, pendingOps_slotsPromise_nil _ h, claimCallback]
  · rw [if_neg h]
    simp [Async.launch, Async.settled, Async.keep, Async.pendingOps, Async.wrap, hfirst,
      settled_slotsPromise, h]

theorem step_of_pending (choice : Nat) (m : Machine) (first : Op) (rest : List Op)
    (h : Async.pendingOps m.promise = first :: rest) :
    step choice m
      = ⟨(Async.launch (applyOp (pick (first :: rest) choice first) m.caches)
            (Async.completeFirst (pick (first :: rest) choice first) m.promise).1).1,
          applyOp (pick (first :: rest) choice first) m.caches,
          m.trace ++ (OpEvent.completed (pick (first :: rest) choice first),
              applyOp (pick (first :: rest) choice first) m.caches)
            :: (Async.launch (applyOp (pick (first :: rest) choice first) m.caches)
                (Async.completeFirst (pick (first :: rest) choice first) m.promise).1).2.map
                (fun started => (OpEvent.started started,
                  applyOp (pick (first :: rest) choice first) m.caches))⟩ := by
  unfold step
  rw [h]

theorem step_of_idle (choice : Nat) (m : Machine) (h : Async.pendingOps m.promise = []) :
    step choice m = m := by
  unfold step
  rw [h]

theorem noClaim_append (a b : List (OpEvent × CacheStorage)) (ha : NoClaim a)
    (hb : NoClaim b) : NoClaim (a ++ b) := by
  intro e he
  rcases List.mem_append.1 he with h | h
  · exact ha e h
  · exact hb e h

theorem noClaim_started (ops : List Op) (caches : CacheStorage)
    (h : ∀ op ∈ ops, op ≠ Op.claim) :
    NoClaim (ops.map (fun started => (OpEvent.started started, caches))) := by
  intro e he
  rw [List.mem_map] at he
  obtain ⟨op, hop, heq⟩ := he
  rw [← heq]
  intro hh
  injection hh with hh
  exact h op hop hh

theorem phaseKeys_start (caches : CacheStorage) :
    PhaseKeys caches (start activateChain caches) := by
  refine ⟨rfl, rfl, ?_⟩
  intro e he
  have : e = (OpEvent.started Op.keys, caches) := by
    simpa [start, activateChain, Async.launch, Async.settled] using he
  rw [this]
  exact fun hh => by cases hh

theorem step_of_phaseKeys (caches : CacheStorage) (choice : Nat) (m : Machine)
    (h : PhaseKeys caches m) :
    PhaseClaimed caches (step choice m) ∨
      ∃ slots, PhaseDeleting caches slots (step choice m) ∧
        countPending slots ≤ (cachesKeys caches).length := by
  obtain ⟨hp, hc, hn⟩ := h
  have hpend : Async.pendingOps m.promise = [Op.keys] := by
    rw [hp]
    rfl
  have hpick : pick [Op.keys] choice Op.keys = Op.keys := by
    cases choice <;> rfl
  have hcomplete : (Async.completeFirst Op.keys m.promise).1
      = .chain (.chain .resolved evictCallback true) claimCallback true := by
    rw [hp]
    simp [Async.completeFirst]
  have hstarted := (launch_evictCallback caches caches).2
  rw [step_of_pending choice m Op.keys [] hpend, hpick, hcomplete]
  have happly : applyOp Op.keys m.caches = caches := by
    rw [hc]
    rfl
  rw [happly, launch_after_keys]
  by_cases hzero : countPending (toSlots (cachesKeys caches)) = 0
  · left
    rw [if_pos hzero]
    refine ⟨Or.inl rfl, ?_⟩
    refine ⟨m.trace ++ (OpEvent.completed Op.keys, caches)
        :: (Async.launch caches (evictCallback caches)).2.map
          (fun started => (OpEvent.started started, caches)),
      caches, [], ?_, ?_, ?_, ?_, ?_⟩
    · simp
    · refine noClaim_append _ _ hn ?_
      intro e he
      rcases List.mem_cons.1 he with h | h
      · rw [h]
        exact fun hh => by cases hh
      · exact noClaim_started _ caches hstarted e h
    · intro e he
      cases he
    · intro name hname h1 h2
      exact absurd ((mem_toSlots (cachesKeys caches) name).2 ⟨hname, h1, h2⟩)
        (not_mem_of_countPending_zero _ hzero name)
    · symm
      rw [List.filter_eq_self]
      intro p hp
      have hmem : p.1 ∈ cachesKeys caches := List.mem_map_of_mem Prod.fst hp
      have hnot := not_mem_of_countPending_zero _ hzero p.1
      rw [mem_toSlots] at hnot
      by_cases h1 : p.1 = CACHE_NAME
      · simp [h1]
      · by_cases h2 : p.1 = OFFLINE_CACHE_NAME
        · simp [h2]
        · exact absurd ⟨hmem, h1, h2⟩ hnot
  · right
    rw [if_neg hzero]
    refine ⟨toSlots (cachesKeys caches), ⟨rfl, Nat.pos_of_ne_zero hzero, [], ?_, ?_, ?_, ?_,
      ?_, ?_⟩, countPending_toSlots_le _⟩
    · simp
    · intro name hname
      cases hname
    · intro name hname
      exact ((mem_toSlots _ name).1 hname).2
    · intro name hname hold
      exact Or.inr ((mem_toSlots _ name).2 ⟨hname, hold⟩)
    · intro name hname
      cases hname
    · refine noClaim_append _ _ hn ?_
      intro e he
      rcases List.mem_cons.1 he with h | h
      · rw [h]
        exact fun hh => by cases hh
      · exact noClaim_started _ caches hstarted e h

theorem step_of_phaseDeleting (caches : CacheStorage) (choice : Nat)
    (slots : List (Option String)) (m : Machine) (h : PhaseDeleting caches slots m) :
    PhaseClaimed caches (step choice m) ∨
      ∃ later, PhaseDeleting caches later (step choice m) ∧
        countPending later + 1 = countPending slots := by
  obtain ⟨hp, hpos, gone, hc, hgone, hslots, hcover, hdone, hn⟩ := h
  have hpendeq : Async.pendingOps m.promise = Async.pendingOps (slotsPromise slots) := by
    rw [hp]
    rfl
  cases hlist : Async.pendingOps m.promise with
  | nil =>
    exfalso
    obtain ⟨name, hname⟩ := mem_of_countPending_pos slots hpos
    have hmem : Op.delete name ∈ Async.pendingOps (slotsPromise slots) :=
      (pendingOps_slotsPromise_mem slots _).2 ⟨name, rfl, hname⟩
    rw [← hpendeq, hlist] at hmem
    cases hmem
  | cons first rest =>
    have hmem : pick (first :: rest) choice first ∈ Async.pendingOps (slotsPromise slots) := by
      rw [← hpendeq, hlist]
      exact pick_mem first rest choice first
    obtain ⟨name, hop, hname⟩ := (pendingOps_slotsPromise_mem slots _).1 hmem
    have hcomplete : (Async.completeFirst (Op.delete name) m.promise).1
        = .chain (slotsPromise (clearFirst name slots)) claimCallback true := by
      rw [hp]
      simp [Async.completeFirst, completeFirst_slotsPromise name slots hname]
    have hcount := countPending_clearFirst name slots hname
    have hstorage : applyOp (Op.delete name) m.caches
        = caches.filter (fun p => decide (p.1 ∉ name :: gone)) := by
      rw [hc]
      simp only [applyOp, cachesDelete, List.filter_filter]
      apply List.filter_congr
      intro p _
      by_cases hpn : p.1 = name
      · simp [hpn]
      · simp [hpn]
    have htrace : ∀ n ∈ name :: gone, ∃ c,
        (OpEvent.completed (Op.delete n), c) ∈
          m.trace ++ [(OpEvent.completed (Op.delete name), applyOp (Op.delete name) m.caches)] := by
      intro n hn'
      rcases List.mem_cons.1 hn' with h | h
      · exact ⟨_, List.mem_append_right _ (by rw [h]; exact List.mem_singleton.2 rfl)⟩
      · obtain ⟨c, hc'⟩ := hdone n h
        exact ⟨c, List.mem_append_left _ hc'⟩
    have hcover' : ∀ n ∈ cachesKeys caches, n ≠ CACHE_NAME ∧ n ≠ OFFLINE_CACHE_NAME →
        n ∈ name :: gone ∨ some n ∈ clearFirst name slots := by
      intro n hn' hold
      by_cases hnn : n = name
      · exact Or.inl (List.mem_cons.2 (Or.inl hnn))
      · rcases hcover n hn' hold with h | h
        · exact Or.inl (List.mem_cons_of_mem _ h)
        · exact Or.inr (mem_clearFirst_of_ne name n slots h hnn)
    have hnoclaim : NoClaim
        (m.trace ++ [(OpEvent.completed (Op.delete name),
          applyOp (Op.delete name) m.caches)]) := by
      refine noClaim_append _ _ hn ?_
      intro e he
      rw [List.mem_singleton.1 he]
      exact fun hh => by cases hh
    rw [step_of_pending choice m first rest hlist, hop, hcomplete, launch_claim_chain]
    by_cases hzero : countPending (clearFirst name slots) = 0
    · left
      rw [if_pos hzero]
      refine ⟨Or.inl rfl, ?_⟩
      refine ⟨m.trace ++ [(OpEvent.completed (Op.delete name),
          applyOp (Op.delete name) m.caches)],
        applyOp (Op.delete name) m.caches, [], ?_, hnoclaim, ?_, ?_, ?_⟩
      · simp
      · intro e he
        cases he
      · intro n hn' h1 h2
        rcases hcover' n hn' ⟨h1, h2⟩ with h | h
        · exact htrace n h
        · exact absurd h (not_mem_of_countPending_zero _ hzero n)
      · rw [hstorage]
        apply List.filter_congr
        intro p hp'
        have hmemk : p.1 ∈ cachesKeys caches := List.mem_map_of_mem Prod.fst hp'
        by_cases hold : p.1 ≠ CACHE_NAME ∧ p.1 ≠ OFFLINE_CACHE_NAME
        · have hin : p.1 ∈ name :: gone := by
            rcases hcover' p.1 hmemk hold with h | h
            · exact h
            · exact absurd h (not_mem_of_countPending_zero _ hzero p.1)
          simp [hin, hold.1, hold.2]
        · have hnotin : p.1 ∉ name :: gone := by
            intro hin
            rcases List.mem_cons.1 hin with h | h
            · exact hold (h ▸ hslots name hname)
            · exact hold (hgone p.1 h)
          have hkeep : p.1 = CACHE_NAME ∨ p.1 = OFFLINE_CACHE_NAME := by
            by_cases h1 : p.1 = CACHE_NAME
            · exact Or.inl h1
            · by_cases h2 : p.1 = OFFLINE_CACHE_NAME
              · exact Or.inr h2
              · exact absurd ⟨h1, h2⟩ hold
          simp [hnotin, hkeep]
    · right
      rw [if_neg hzero]
      refine ⟨clearFirst name slots, ⟨rfl, Nat.pos_of_ne_zero hzero, name :: gone, hstorage,
        ?_, ?_, hcover', ?_, ?_⟩, hcount⟩
      · intro n hn'
        rcases List.mem_cons.1 hn' with h | h
        · exact h ▸ hslots name hname
        · exact hgone n h
      · intro n hn'
        exact hslots n (mem_of_mem_clearFirst name n slots hn')
      · simpa using htrace
      · simpa using hnoclaim

theorem step_of_phaseClaimed (caches : CacheStorage) (choice : Nat) (m : Machine)
    (h : PhaseClaimed caches m) : PhaseClaimed caches (step choice m) := by
  obtain ⟨hp, pre, cs, post, htrace, hpre, hpost, hdel, hcs⟩ := h
  rcases hp with hp | hp
  · have hpend : Async.pendingOps m.promise = [Op.claim] := by
      rw [hp]
      rfl
    have hpick : pick [Op.claim] choice Op.claim = Op.claim := by
      cases choice <;> rfl
    rw [step_of_pending choice m Op.claim [] hpend, hpick, hp]
    refine ⟨Or.inr ?_, pre, cs, post ++ [(OpEvent.completed Op.claim, m.caches)], ?_, hpre, ?_,
      hdel, hcs⟩
    · simp [Async.completeFirst, Async.launch]
    · simp [Async.completeFirst, Async.launch, applyOp, htrace]
    · refine noClaim_append _ _ hpost ?_
      intro e he
      rw [List.mem_singleton.1 he]
      exact fun hh => by cases hh
  · have hpend : Async.pendingOps m.promise = [] := by
      rw [hp]
      rfl
    rw [step_of_idle choice m hpend]
    exact ⟨Or.inr hp, pre, cs, post, htrace, hpre, hpost, hdel, hcs⟩

theorem run_of_phaseClaimed (caches : CacheStorage) (schedule : List Nat) (m : Machine)
    (h : PhaseClaimed caches m) : PhaseClaimed caches (run schedule m) := by
  induction schedule generalizing m with
  | nil => exact h
  | cons choice rest ih => exact ih (step choice m) (step_of_phaseClaimed caches choice m h)

theorem run_of_phaseDeleting (caches : CacheStorage) (schedule : List Nat)
    (slots : List (Option String)) (m : Machine) (h : PhaseDeleting caches slots m) :
    (PhaseClaimed caches (run schedule m) ∨
      ∃ later, PhaseDeleting caches later (run schedule m)) ∧
    (countPending slots ≤ schedule.length → PhaseClaimed caches (run schedule m)) := by
  induction schedule generalizing m slots with
  | nil =>
    refine ⟨Or.inr ⟨slots, h⟩, fun hlen => ?_⟩
    have hpos := h.2.1
    simp at hlen
    omega
  | cons choice rest ih =>
    rcases step_of_phaseDeleting caches choice slots m h with hclaimed | ⟨later, hlater, hcount⟩
    · have := run_of_phaseClaimed caches rest (step choice m) hclaimed
      exact ⟨Or.inl this, fun _ => this⟩
    · obtain ⟨h1, h2⟩ := ih later (step choice m) hlater
      refine ⟨h1, fun hlen => h2 ?_⟩
      simp at hlen
      omega

theorem run_of_phaseKeys (caches : CacheStorage) (schedule : List Nat) (m : Machine)
    (h : PhaseKeys caches m) :
    (NoClaim (run schedule m).trace ∨ ClaimedAfterEviction caches (run schedule m).trace) ∧
    ((cachesKeys caches).length + 1 ≤ schedule.length →
      ClaimedAfterEviction caches (run schedule m).trace) := by
  cases schedule with
  | nil =>
    refine ⟨Or.inl h.2.2, fun hlen => ?_⟩
    simp at hlen
  | cons choice rest =>
    rcases step_of_phaseKeys caches choice m h with hclaimed | ⟨slots, hslots, hcount⟩
    · have := (run_of_phaseClaimed caches rest (step choice m) hclaimed).2
      exact ⟨Or.inr this, fun _ => this⟩
    · obtain ⟨h1, h2⟩ := run_of_phaseDeleting caches rest slots (step choice m) hslots
      refine ⟨?_, fun hlen => (h2 ?_).2⟩
      · rcases h1 with h1 | ⟨later, h1⟩
        · exact Or.inr h1.2
        · obtain ⟨_, _, gone, _, _, _, _, _, hno⟩ := h1
          exact Or.inl hno
      · simp at hlen
        omega

/-! ## Strategy selection: C1, C2, C3 -/

/-- C1: for every pathname, whatever the network and the cache storage, the list of strategy
executors that `handleGetRequest` enters is a list of exactly one element, and that
element is `networkFirst`, `cacheFirst` or `staleWhileRevalidate`: the classification is
total and the three cases exclude one another. -/
theorem handleGetRequest_dispatches_exactly_one (fetch : Request → Settled Response)
    (caches : CacheStorage) (request : Request) :
    ∃ s ∈ [Fn.networkFirst, Fn.cacheFirst, Fn.staleWhileRevalidate],
      (handleGetRequest fetch caches request).calls.filter
        (fun f => decide (f ≠ Fn.handleOffline)) = [s] := by
  have h := handleGetRequest_calls fetch caches request
  dsimp only at h
  by_cases hnf : shouldUseNetworkFirst request.pathname = true
  · refine ⟨Fn.networkFirst, by simp, ?_⟩
    rw [if_pos hnf] at h
    rcases h with h | h <;> rw [h] <;> decide
  · by_cases hst : isStaticAsset request.pathname = true
    · refine ⟨Fn.cacheFirst, by simp, ?_⟩
      rw [if_neg hnf, if_pos hst] at h
      rcases h with h | h <;> rw [h] <;> decide
    · refine ⟨Fn.staleWhileRevalidate, by simp, ?_⟩
      rw [if_neg hnf, if_neg hst] at h
      rcases h with h | h <;> rw [h] <;> decide

/-- C2: `handleGetRequest` selects network-first if and only if the pathname starts with
"/contact.html", "/api/" or "/_netlify/"; the prefix test comes first, so a pathname with
such a prefix never reaches `cacheFirst`, whatever its extension. -/
theorem handleGetRequest_networkFirst_iff (fetch : Request → Settled Response)
    (caches : CacheStorage) (request : Request) :
    ((handleGetRequest fetch caches request).calls.head? = some Fn.networkFirst ↔
      ∃ pattern ∈ ["/contact.html", "/api/", "/_netlify/"],
        pattern.data <+: request.pathname.data) ∧
    ((∃ pattern ∈ ["/contact.html", "/api/", "/_netlify/"],
        pattern.data <+: request.pathname.data) →
      Fn.cacheFirst ∉ (handleGetRequest fetch caches request).calls) := by
  have hhead := handleGetRequest_head fetch caches request
  have hcalls := handleGetRequest_calls fetch caches request
  dsimp only at hcalls
  rw [← shouldUseNetworkFirst_iff]
  by_cases hnf : shouldUseNetworkFirst request.pathname = true
  · rw [if_pos hnf] at hhead hcalls
    refine ⟨⟨fun _ => hnf, fun _ => hhead⟩, fun _ => ?_⟩
    rcases hcalls with h | h <;> rw [h] <;> decide
  · rw [if_neg hnf] at hhead
    refine ⟨⟨fun h => ?_, fun h => absurd h hnf⟩, fun h => absurd h hnf⟩
    rw [hhead] at h
    by_cases hst : isStaticAsset request.pathname = true
    · rw [if_pos hst] at h; cases h
    · rw [if_neg hst] at h; cases h

/-- Witness of C2: "/api/app.js" ends in a static-asset extension, and yet it is handled
network-first and `cacheFirst` is not entered. -/
theorem handleGetRequest_networkFirst_iff_witness :
    isStaticAsset "/api/app.js" = true ∧
    (handleGetRequest (fun _ => .rejected "offline") [] (getRequest "/api/app.js")).calls.head?
      = some Fn.networkFirst ∧
    Fn.cacheFirst ∉
      (handleGetRequest (fun _ => .rejected "offline") [] (getRequest "/api/app.js")).calls :=
  ⟨by decide,
    (handleGetRequest_networkFirst_iff (fun _ => .rejected "offline") []
      (getRequest "/api/app.js")).1.2 ⟨"/api/", by decide, by decide⟩,
    (handleGetRequest_networkFirst_iff (fun _ => .rejected "offline") []
      (getRequest "/api/app.js")).2 ⟨"/api/", by decide, by decide⟩⟩

/-- C3: for a pathname without a network-first prefix, `handleGetRequest` selects cache-first
if and only if the pathname ends with a dot followed by one of css, js, jpg, jpeg, png, gif,
webp, svg, woff, woff2, ttf, eot, ico, and selects stale-while-revalidate if and only if it
does not. -/
theorem handleGetRequest_cacheFirst_iff (fetch : Request → Settled Response)
    (caches : CacheStorage) (request : Request)
    (hno : ¬ ∃ pattern ∈ ["/contact.html", "/api/", "/_netlify/"],
      pattern.data <+: request.pathname.data) :
    ((handleGetRequest fetch caches request).calls.head? = some Fn.cacheFirst ↔
      ∃ ext ∈ ["css", "js", "jpg", "jpeg", "png", "gif", "webp", "svg", "woff", "woff2",
        "ttf", "eot", "ico"], ('.' :: ext.data) <:+ request.pathname.data) ∧
    ((handleGetRequest fetch caches request).calls.head? = some Fn.staleWhileRevalidate ↔
      ¬ ∃ ext ∈ ["css", "js", "jpg", "jpeg", "png", "gif", "webp", "svg", "woff", "woff2",
        "ttf", "eot", "ico"], ('.' :: ext.data) <:+ request.pathname.data) := by
  have hhead := handleGetRequest_head fetch caches request
  rw [← shouldUseNetworkFirst_iff] at hno
  rw [if_neg hno] at hhead
  rw [← isStaticAsset_iff, hhead]
  by_cases hst : isStaticAsset request.pathname = true
  · rw [if_pos hst]
    exact ⟨⟨fun _ => hst, fun _ => rfl⟩, ⟨fun h => (by cases h), fun h => absurd hst h⟩⟩
  · rw [if_neg hst]
    exact ⟨⟨fun h => (by cases h), fun h => absurd h hst⟩, ⟨fun _ => hst, fun _ => rfl⟩⟩

/-- Witness of C3: "/assets/css/main.css" is cache-first; "/", "/about.html" and
"/manifest.json" are stale-while-revalidate. -/
theorem handleGetRequest_cacheFirst_iff_witness :
    (handleGetRequest (fun _ => .rejected "offline") []
      (getRequest "/assets/css/main.css")).calls.head? = some Fn.cacheFirst ∧
    (handleGetRequest (fun _ => .rejected "offline") [] (getRequest "/")).calls.head?
      = some Fn.staleWhileRevalidate ∧
    (handleGetRequest (fun _ => .rejected "offline") [] (getRequest "/about.html")).calls.head?
      = some Fn.staleWhileRevalidate ∧
    (handleGetRequest (fun _ => .rejected "offline") [] (getRequest "/manifest.json")).calls.head?
      = some Fn.staleWhileRevalidate :=
  ⟨(handleGetRequest_cacheFirst_iff (fun _ => .rejected "offline") []
      (getRequest "/assets/css/main.css") (by decide)).1.2 ⟨"css", by decide, by decide⟩,
    (handleGetRequest_cacheFirst_iff (fun _ => .rejected "offline") []
      (getRequest "/") (by decide)).2.2 (by decide),
    (handleGetRequest_cacheFirst_iff (fun _ => .rejected "offline") []
      (getRequest "/about.html") (by decide)).2.2 (by decide),
    (handleGetRequest_cacheFirst_iff (fun _ => .rejected "offline") []
      (getRequest "/manifest.json") (by decide)).2.2 (by decide)⟩

/-- The run of `cacheFirst` when its lookup finds an entry. -/
theorem cacheFirst_of_hit (fetch : Request → Settled Response) (caches : CacheStorage)
    (request : Request) (cached : Response)
    (hhit : cachesMatch caches request.url = some cached) :
    cacheFirst fetch caches request = ⟨.resolved (some cached), caches, [], [.cacheFirst]⟩ := by
  unfold cacheFirst
  rw [hhit]

/-! ## Cache-first: C4, C5 -/

/-- C4: when the lookup for the request finds an entry, `cacheFirst` returns exactly that
entry and issues no network fetch, whatever the network would have answered. -/
theorem cacheFirst_hit_no_fetch (fetch : Request → Settled Response) (caches : CacheStorage)
    (request : Request) (cached : Response)
    (hhit : cachesMatch caches request.url = some cached) :
    (cacheFirst fetch caches request).result = .resolved (some cached) ∧
    (cacheFirst fetch caches request).fetches = [] := by
  rw [cacheFirst_of_hit fetch caches request cached hhit]
  exact ⟨rfl, rfl⟩

/-- Witness of C4: "/assets/css/main.css" is cached and the network would answer 500. -/
theorem cacheFirst_hit_no_fetch_witness :
    (cacheFirst (fun _ => .resolved (sampleResponse 500 "error"))
      [(CACHE_NAME, [("/assets/css/main.css", sampleResponse 200 "body")])]
      (getRequest "/assets/css/main.css")).result
        = .resolved (some (sampleResponse 200 "body")) ∧
    (cacheFirst (fun _ => .resolved (sampleResponse 500 "error"))
      [(CACHE_NAME, [("/assets/css/main.css", sampleResponse 200 "body")])]
      (getRequest "/assets/css/main.css")).fetches = [] :=
  cacheFirst_hit_no_fetch (fun _ => .resolved (sampleResponse 500 "error"))
    [(CACHE_NAME, [("/assets/css/main.css", sampleResponse 200 "body")])]
    (getRequest "/assets/css/main.css") (sampleResponse 200 "body") (by decide)

/-- The case of C5 in which `cache.put` accepts the response: for a request with no cached
entry whose fetch resolves with an ok response `n` that `cache.put` accepts, `cacheFirst`
returns `n` after one fetch, the primary partition then maps the request to `n`, and a
second `cacheFirst` call in the resulting state returns `n` with no fetch. -/
theorem cacheFirst_store_then_hit (fetch fetchAgain : Request → Settled Response)
    (caches : CacheStorage) (request : Request) (n : Response)
    (hmiss : cachesMatch caches request.url = none)
    (hfetch : fetch request = .resolved n) (hok : n.ok = true)
    (haccept : putAccepts request n = true) :
    (cacheFirst fetch caches request).result = .resolved (some n) ∧
    (cacheFirst fetch caches request).fetches = [request] ∧
    cacheMatch (cacheFirst fetch caches request).caches CACHE_NAME request.url = some n ∧
    (cacheFirst fetchAgain (cacheFirst fetch caches request).caches request).result
      = .resolved (some n) ∧
    (cacheFirst fetchAgain (cacheFirst fetch caches request).caches request).fetches = [] := by
  have hrun : cacheFirst fetch caches request =
      ⟨.resolved (some n), cacheWrite (cachesOpen caches CACHE_NAME) CACHE_NAME request.url n,
        [request], [.cacheFirst]⟩ := by
    unfold cacheFirst
    rw [hmiss, hfetch]
    simp only [hok, if_true, cachePut_of_accepted _ _ _ _ haccept]
  have hhit : cachesMatch (cacheWrite (cachesOpen caches CACHE_NAME) CACHE_NAME request.url n)
      request.url = some n :=
    cachesMatch_cacheWrite_of_none _ _ _ _
      ((cachesMatch_cachesOpen caches CACHE_NAME request.url).trans hmiss)
      (cachesHas_cachesOpen caches CACHE_NAME)
  rw [hrun]
  refine ⟨rfl, rfl, ?_, ?_, ?_⟩
  · exact cacheMatch_cacheWrite_self _ _ _ _ (cachesHas_cachesOpen caches CACHE_NAME)
  · rw [cacheFirst_of_hit fetchAgain _ request n hhit]
  · rw [cacheFirst_of_hit fetchAgain _ request n hhit]

/-- C5, the code at the failing input: "/assets/js/main.js" is not cached and the fetch
resolves with an ok response of status 206. `cacheFirst` returns the response, but the
`cache.put` it does not await is refused: the primary partition has no entry for the
request, and a second `cacheFirst` call in the resulting state fetches again. The same
happens for a 200 response whose `Vary` header is `*`. -/
theorem cacheFirst_ok_response_not_stored :
    (sampleResponse 206 "part").ok = true ∧
    (cacheFirst (fun _ => .resolved (sampleResponse 206 "part")) []
      (getRequest "/assets/js/main.js")).result
      = .resolved (some (sampleResponse 206 "part")) ∧
    cacheMatch (cacheFirst (fun _ => .resolved (sampleResponse 206 "part")) []
      (getRequest "/assets/js/main.js")).caches CACHE_NAME "/assets/js/main.js" = none ∧
    (cacheFirst (fun _ => .resolved (sampleResponse 206 "part"))
      (cacheFirst (fun _ => .resolved (sampleResponse 206 "part")) []
        (getRequest "/assets/js/main.js")).caches
      (getRequest "/assets/js/main.js")).fetches = [getRequest "/assets/js/main.js"] ∧
    Response.ok ⟨200, [("Vary", "*")], "body"⟩ = true ∧
    cacheMatch (cacheFirst (fun _ => .resolved ⟨200, [("Vary", "*")], "body"⟩) []
      (getRequest "/assets/js/main.js")).caches CACHE_NAME "/assets/js/main.js" = none := by
  decide

/-! ## Failed responses are not cached: C6 -/

/-- Counterexample to C6 as stated: on an empty cache storage, with a fetch that resolves
with a 500 response, `staleWhileRevalidate` leaves a storage that differs from the one
before the call, because its `caches.open` has created the primary partition. -/
theorem staleWhileRevalidate_non_ok_changes_storage :
    (sampleResponse 500 "error").ok = false ∧
    (staleWhileRevalidate (fun _ => .resolved (sampleResponse 500 "error")) []
      (getRequest "/about.html")).caches = [("eteas-energy-v1.0.0", [])] ∧
    (staleWhileRevalidate (fun _ => .resolved (sampleResponse 500 "error")) []
      (getRequest "/about.html")).caches ≠ [] := by
  decide

/-- C6, amended: when the fetch resolves with a response whose ok flag is false, no entry is
written. `networkFirst` and `cacheFirst` leave the cache storage as it was;
`staleWhileRevalidate` leaves the storage as its `caches.open` of the primary partition
made it, which is the storage before the call whenever the primary partition existed; and
in every partition every lookup answers after the call what it answered before. -/
theorem non_ok_response_not_cached (fetch : Request → Settled Response)
    (caches : CacheStorage) (request : Request) (n : Response)
    (hfetch : fetch request = .resolved n) (hok : n.ok = false) :
    (networkFirst fetch caches request).caches = caches ∧
    (cacheFirst fetch caches request).caches = caches ∧
    (staleWhileRevalidate fetch caches request).caches = cachesOpen caches CACHE_NAME ∧
    (cachesHas caches CACHE_NAME = true →
      (staleWhileRevalidate fetch caches request).caches = caches) ∧
    (∀ name url, cacheMatch (staleWhileRevalidate fetch caches request).caches name url
      = cacheMatch caches name url) := by
  have hnf : (networkFirst fetch caches request).caches = caches := by
    unfold networkFirst
    rw [hfetch]
    simp [hok]
  have hcf : (cacheFirst fetch caches request).caches = caches := by
    unfold cacheFirst
    rw [hfetch]
    split
    · rfl
    · simp [hok]
  have hswr : (staleWhileRevalidate fetch caches request).caches
      = cachesOpen caches CACHE_NAME := by
    unfold staleWhileRevalidate
    rw [hfetch]
    simp only [hok]
    split <;> rfl
  refine ⟨hnf, hcf, hswr, fun hhas => ?_, fun name url => ?_⟩
  · rw [hswr, cachesOpen_of_has caches CACHE_NAME hhas]
  · rw [hswr, cacheMatch_cachesOpen]

/-- Witness of C6, amended: "/about.html" with the primary partition present and a 500
answer from the network. -/
theorem non_ok_response_not_cached_witness :
    (staleWhileRevalidate (fun _ => .resolved (sampleResponse 500 "error"))
      [(CACHE_NAME, [("/about.html", sampleResponse 200 "about")])]
      (getRequest "/about.html")).caches
      = [(CACHE_NAME, [("/about.html", sampleResponse 200 "about")])] :=
  (non_ok_response_not_cached (fun _ => .resolved (sampleResponse 500 "error"))
    [(CACHE_NAME, [("/about.html", sampleResponse 200 "about")])]
    (getRequest "/about.html") (sampleResponse 500 "error") rfl (by decide)).2.2.2.1
    (by decide)

/-! ## Network-first: C7, C8, C9, C10 -/

/-- C7: for a network-first request whose fetch rejects, `networkFirst` returns the cache
entry when `caches.match` finds one; when it finds none, `networkFirst` rejects with the
network error and `handleGetRequest` returns what `handleOffline(request)` returns. -/
theorem networkFirst_fallback_on_rejection (fetch : Request → Settled Response)
    (caches : CacheStorage) (request : Request) (error : String)
    (hclass : shouldUseNetworkFirst request.pathname = true)
    (hfetch : fetch request = .rejected error) :
    (∀ cached, cachesMatch caches request.url = some cached →
      (networkFirst fetch caches request).result = .resolved (some cached) ∧
      (handleGetRequest fetch caches request).result = .resolved (some cached)) ∧
    (cachesMatch caches request.url = none →
      (networkFirst fetch caches request).result = .rejected error ∧
      (handleGetRequest fetch caches request).result = (handleOffline caches request).result ∧
      (handleGetRequest fetch caches request).calls = [.networkFirst, .handleOffline]) := by
  constructor
  · intro cached hhit
    have hrun : networkFirst fetch caches request =
        ⟨.resolved (some cached), caches, [request], [.networkFirst]⟩ := by
      unfold networkFirst
      rw [hfetch]
      simp only [hhit]
    refine ⟨by rw [hrun], ?_⟩
    unfold handleGetRequest
    simp only [hclass, if_true, hrun]
  · intro hmiss
    have hrun : networkFirst fetch caches request =
        ⟨.rejected error, caches, [request], [.networkFirst]⟩ := by
      unfold networkFirst
      rw [hfetch]
      simp only [hmiss]
    refine ⟨by rw [hrun], ?_, ?_⟩
    · unfold handleGetRequest
      simp only [hclass, if_true, hrun]
    · unfold handleGetRequest
      simp only [hclass, if_true, hrun, handleOffline_calls]
      rfl

/-- Witness of C7: "/contact.html" with the network down, once cached and once on an empty
storage. -/
theorem networkFirst_fallback_on_rejection_witness :
    (networkFirst (fun _ => .rejected "offline")
      [(CACHE_NAME, [("/contact.html", sampleResponse 200 "contact")])]
      (getRequest "/contact.html")).result
        = .resolved (some (sampleResponse 200 "contact")) ∧
    (networkFirst (fun _ => .rejected "offline") [] (getRequest "/contact.html")).result
      = .rejected "offline" ∧
    (handleGetRequest (fun _ => .rejected "offline") [] (getRequest "/contact.html")).result
      = (handleOffline [] (getRequest "/contact.html")).result :=
  ⟨((networkFirst_fallback_on_rejection (fun _ => .rejected "offline")
      [(CACHE_NAME, [("/contact.html", sampleResponse 200 "contact")])]
      (getRequest "/contact.html") "offline" (by decide) rfl).1
      (sampleResponse 200 "contact") (by decide)).1,
    ((networkFirst_fallback_on_rejection (fun _ => .rejected "offline") []
      (getRequest "/contact.html") "offline" (by decide) rfl).2 rfl).1,
    ((networkFirst_fallback_on_rejection (fun _ => .rejected "offline") []
      (getRequest "/contact.html") "offline" (by decide) rfl).2 rfl).2.1⟩

/-- Counterexample to C8 as stated: "/contact.html" is network-first and cached, the fetch
resolves with a 503 response, and `networkFirst` returns the 503 response, not the cached
entry. -/
theorem networkFirst_non_ok_returned_not_cached_entry :
    shouldUseNetworkFirst "/contact.html" = true ∧
    cachesMatch [(CACHE_NAME, [("/contact.html", sampleResponse 200 "contact")])]
      (getRequest "/contact.html").url = some (sampleResponse 200 "contact") ∧
    (sampleResponse 503 "unavailable").ok = false ∧
    (networkFirst (fun _ => .resolved (sampleResponse 503 "unavailable"))
      [(CACHE_NAME, [("/contact.html", sampleResponse 200 "contact")])]
      (getRequest "/contact.html")).result
        = .resolved (some (sampleResponse 503 "unavailable")) ∧
    (networkFirst (fun _ => .resolved (sampleResponse 503 "unavailable"))
      [(CACHE_NAME, [("/contact.html", sampleResponse 200 "contact")])]
      (getRequest "/contact.html")).result
        ≠ .resolved (some (sampleResponse 200 "contact")) := by
  decide

/-- C8, amended: a non-2xx response is not a network failure for network-first. When the
fetch resolves with a response whose ok flag is false, `networkFirst` returns that
response itself, whether or not a cache entry exists, and leaves the cache storage as it
was; it is when the fetch rejects that `networkFirst` recovers by returning the cached
entry. -/
theorem networkFirst_non_ok_is_returned (fetch : Request → Settled Response)
    (caches : CacheStorage) (request : Request) :
    (∀ n, fetch request = .resolved n → n.ok = false →
      (networkFirst fetch caches request).result = .resolved (some n) ∧
      (networkFirst fetch caches request).caches = caches) ∧
    (∀ error cached, fetch request = .rejected error →
      cachesMatch caches request.url = some cached →
      (networkFirst fetch caches request).result = .resolved (some cached)) := by
  constructor
  · intro n hfetch hok
    unfold networkFirst
    rw [hfetch]
    simp [hok]
  · intro error cached hfetch hhit
    unfold networkFirst
    rw [hfetch]
    simp only [hhit]

/-- Witness of C8, amended: the cached "/contact.html" with a 503 answer, and with the
network down. -/
theorem networkFirst_non_ok_is_returned_witness :
    (networkFirst (fun _ => .resolved (sampleResponse 503 "unavailable"))
      [(CACHE_NAME, [("/contact.html", sampleResponse 200 "contact")])]
      (getRequest "/contact.html")).result
        = .resolved (some (sampleResponse 503 "unavailable")) ∧
    (networkFirst (fun _ => .rejected "offline")
      [(CACHE_NAME, [("/contact.html", sampleResponse 200 "contact")])]
      (getRequest "/contact.html")).result
        = .resolved (some (sampleResponse 200 "contact")) :=
  ⟨((networkFirst_non_ok_is_returned (fun _ => .resolved (sampleResponse 503 "unavailable"))
      [(CACHE_NAME, [("/contact.html", sampleResponse 200 "contact")])]
      (getRequest "/contact.html")).1 (sampleResponse 503 "unavailable") rfl (by decide)).1,
    (networkFirst_non_ok_is_returned (fun _ => .rejected "offline")
      [(CACHE_NAME, [("/contact.html", sampleResponse 200 "contact")])]
      (getRequest "/contact.html")).2 "offline" (sampleResponse 200 "contact") rfl
      (by decide)⟩

/-- The case of C9 in which `cache.put` accepts the response: when the fetch resolves with a
response `n`, `networkFirst` returns `n` itself after that one fetch; and if `n` is ok and
`cache.put` accepts it, the primary partition afterwards maps the request to `n`, whatever
it held for the request before. -/
theorem networkFirst_stores_accepted_response (fetch : Request → Settled Response)
    (caches : CacheStorage) (request : Request) (n : Response)
    (hfetch : fetch request = .resolved n) :
    (networkFirst fetch caches request).result = .resolved (some n) ∧
    (networkFirst fetch caches request).fetches = [request] ∧
    (n.ok = true → putAccepts request n = true →
      cacheMatch (networkFirst fetch caches request).caches "eteas-energy-v1.0.0" request.url
        = some n) := by
  by_cases hok : n.ok = true
  · have hrun : networkFirst fetch caches request =
        ⟨.resolved (some n), cachePut (cachesOpen caches CACHE_NAME) CACHE_NAME request n,
          [request], [.networkFirst]⟩ := by
      unfold networkFirst
      rw [hfetch]
      simp only [hok, if_true]
    rw [hrun]
    refine ⟨rfl, rfl, fun _ haccept => ?_⟩
    dsimp only
    rw [cachePut_of_accepted _ _ _ _ haccept]
    exact cacheMatch_cacheWrite_self _ _ _ _ (cachesHas_cachesOpen caches CACHE_NAME)
  · have hrun : networkFirst fetch caches request =
        ⟨.resolved (some n), caches, [request], [.networkFirst]⟩ := by
      unfold networkFirst
      rw [hfetch]
      simp only [hok]
      rfl
    rw [hrun]
    exact ⟨rfl, rfl, fun h => absurd h hok⟩

/-- C9, the code at the failing input: the fetch of the network-first "/api/range" resolves
with an ok response of status 206 on an empty storage. `networkFirst` returns the response,
but the `cache.put` it does not await is refused: the primary partition, which
`caches.open` has created, has no entry for the request. -/
theorem networkFirst_ok_response_not_stored :
    shouldUseNetworkFirst "/api/range" = true ∧
    (sampleResponse 206 "part").ok = true ∧
    (networkFirst (fun _ => .resolved (sampleResponse 206 "part")) []
      (getRequest "/api/range")).result = .resolved (some (sampleResponse 206 "part")) ∧
    (networkFirst (fun _ => .resolved (sampleResponse 206 "part")) []
      (getRequest "/api/range")).caches = [("eteas-energy-v1.0.0", [])] ∧
    cacheMatch (networkFirst (fun _ => .resolved (sampleResponse 206 "part")) []
      (getRequest "/api/range")).caches "eteas-energy-v1.0.0" "/api/range" = none := by
  decide

/-- Counterexample to C10 as stated: "/api/status" is absent from the primary partition and
present in "eteas-offline-v1.0.0"; with the network down `networkFirst` does not propagate
the failure, it returns the entry of the other partition. -/
theorem networkFirst_fallback_reads_other_partition :
    cacheMatch
      [("eteas-energy-v1.0.0", []),
        ("eteas-offline-v1.0.0", [("/api/status", sampleResponse 200 "status")])]
      "eteas-energy-v1.0.0" (getRequest "/api/status").url = none ∧
    (networkFirst (fun _ => .rejected "offline")
      [("eteas-energy-v1.0.0", []),
        ("eteas-offline-v1.0.0", [("/api/status", sampleResponse 200 "status")])]
      (getRequest "/api/status")).result = .resolved (some (sampleResponse 200 "status")) ∧
    (networkFirst (fun _ => .rejected "offline")
      [("eteas-energy-v1.0.0", []),
        ("eteas-offline-v1.0.0", [("/api/status", sampleResponse 200 "status")])]
      (getRequest "/api/status")).result ≠ .rejected "offline" := by
  decide

/-- C10, amended: on network failure the fallback lookup of `networkFirst` is `caches.match`,
which consults every partition of the cache storage in creation order. `networkFirst`
propagates the failure if and only if the request is absent from every partition, and
otherwise returns the first entry found, in whichever partition it is. -/
theorem networkFirst_fallback_consults_all_partitions (fetch : Request → Settled Response)
    (caches : CacheStorage) (request : Request) (error : String)
    (hfetch : fetch request = .rejected error) :
    ((networkFirst fetch caches request).result = .rejected error ↔
      ∀ p ∈ caches, entriesMatch p.2 request.url = none) ∧
    (∀ cached, cachesMatch caches request.url = some cached →
      (networkFirst fetch caches request).result = .resolved (some cached)) := by
  rw [← cachesMatch_eq_none_iff]
  cases hm : cachesMatch caches request.url with
  | none =>
    have hrun : (networkFirst fetch caches request).result = .rejected error := by
      unfold networkFirst
      rw [hfetch]
      simp only [hm]
    exact ⟨⟨fun _ => rfl, fun _ => hrun⟩, fun cached h => by cases h⟩
  | some c =>
    have hrun : (networkFirst fetch caches request).result = .resolved (some c) := by
      unfold networkFirst
      rw [hfetch]
      simp only [hm]
    refine ⟨⟨fun h => ?_, fun h => by cases h⟩, fun cached h => ?_⟩
    · rw [hrun] at h; cases h
    · cases h; exact hrun

/-- Witness of C10, amended: "/api/status" is held by the offline partition only. -/
theorem networkFirst_fallback_consults_all_partitions_witness :
    (networkFirst (fun _ => .rejected "offline")
      [("eteas-energy-v1.0.0", []),
        ("eteas-offline-v1.0.0", [("/api/status", sampleResponse 200 "status")])]
      (getRequest "/api/status")).result = .resolved (some (sampleResponse 200 "status")) :=
  (networkFirst_fallback_consults_all_partitions (fun _ => .rejected "offline")
    [("eteas-energy-v1.0.0", []),
      ("eteas-offline-v1.0.0", [("/api/status", sampleResponse 200 "status")])]
    (getRequest "/api/status") "offline" rfl).2 (sampleResponse 200 "status") (by decide)

/-! ## Stale-while-revalidate: C11, C12, C13 -/

/-- C11: for a request that has an entry `c` in the primary partition,
`staleWhileRevalidate` returns `c`, and under any two network behaviours it returns the
same value: the outcome of the revalidation does not reach the current caller. -/
theorem staleWhileRevalidate_returns_cached (fetch₁ fetch₂ : Request → Settled Response)
    (caches : CacheStorage) (request : Request) (c : Response)
    (hhit : cacheMatch caches CACHE_NAME request.url = some c) :
    (staleWhileRevalidate fetch₁ caches request).result = .resolved (some c) ∧
    (staleWhileRevalidate fetch₂ caches request).result
      = (staleWhileRevalidate fetch₁ caches request).result := by
  rw [staleWhileRevalidate_of_hit fetch₁ caches request c hhit,
    staleWhileRevalidate_of_hit fetch₂ caches request c hhit]
  exact ⟨rfl, rfl⟩

/-- Witness of C11: the cached "/about.html" with the network answering 200 with a new
body, answering 500, and down. -/
theorem staleWhileRevalidate_returns_cached_witness :
    (staleWhileRevalidate (fun _ => .resolved (sampleResponse 200 "new"))
      [(CACHE_NAME, [("/about.html", sampleResponse 200 "about")])]
      (getRequest "/about.html")).result = .resolved (some (sampleResponse 200 "about")) ∧
    (staleWhileRevalidate (fun _ => .rejected "offline")
      [(CACHE_NAME, [("/about.html", sampleResponse 200 "about")])]
      (getRequest "/about.html")).result
      = (staleWhileRevalidate (fun _ => .resolved (sampleResponse 200 "new"))
          [(CACHE_NAME, [("/about.html", sampleResponse 200 "about")])]
          (getRequest "/about.html")).result ∧
    (staleWhileRevalidate (fun _ => .resolved (sampleResponse 500 "error"))
      [(CACHE_NAME, [("/about.html", sampleResponse 200 "about")])]
      (getRequest "/about.html")).result
      = (staleWhileRevalidate (fun _ => .rejected "offline")
          [(CACHE_NAME, [("/about.html", sampleResponse 200 "about")])]
          (getRequest "/about.html")).result :=
  ⟨(staleWhileRevalidate_returns_cached (fun _ => .resolved (sampleResponse 200 "new"))
      (fun _ => .rejected "offline")
      [(CACHE_NAME, [("/about.html", sampleResponse 200 "about")])]
      (getRequest "/about.html") (sampleResponse 200 "about") (by decide)).1,
    (staleWhileRevalidate_returns_cached (fun _ => .resolved (sampleResponse 200 "new"))
      (fun _ => .rejected "offline")
      [(CACHE_NAME, [("/about.html", sampleResponse 200 "about")])]
      (getRequest "/about.html") (sampleResponse 200 "about") (by decide)).2,
    (staleWhileRevalidate_returns_cached (fun _ => .rejected "offline")
      (fun _ => .resolved (sampleResponse 500 "error"))
      [(CACHE_NAME, [("/about.html", sampleResponse 200 "about")])]
      (getRequest "/about.html") (sampleResponse 200 "about") (by decide)).2⟩

/-- The case of C12 in which `cache.put` accepts the response: `staleWhileRevalidate` issues
exactly one network fetch for every request, cached or not; if that fetch resolves with an
ok response `n` that `cache.put` accepts, the primary partition afterwards maps the
request to `n`, and the next `staleWhileRevalidate` call for the same request returns `n`,
whatever the network does then. -/
theorem staleWhileRevalidate_stores_accepted_response
    (fetch fetchNext : Request → Settled Response) (caches : CacheStorage)
    (request : Request) :
    (staleWhileRevalidate fetch caches request).fetches = [request] ∧
    (∀ n, fetch request = .resolved n → n.ok = true → putAccepts request n = true →
      cacheMatch (staleWhileRevalidate fetch caches request).caches CACHE_NAME request.url
        = some n ∧
      (staleWhileRevalidate fetchNext (staleWhileRevalidate fetch caches request).caches
        request).result = .resolved (some n)) := by
  refine ⟨staleWhileRevalidate_fetches fetch caches request, fun n hfetch hok haccept => ?_⟩
  have hput : cacheMatch (staleWhileRevalidate fetch caches request).caches CACHE_NAME
      request.url = some n := by
    rw [staleWhileRevalidate_caches_of_ok fetch caches request n hfetch hok,
      cachePut_of_accepted _ _ _ _ haccept]
    exact cacheMatch_cacheWrite_self _ _ _ _ (cachesHas_cachesOpen caches CACHE_NAME)
  exact ⟨hput, staleWhileRevalidate_of_hit fetchNext _ request n hput⟩

/-- C12, the code at the failing input: "/videos/intro" is not cached and the fetch resolves
with an ok response of status 206. `staleWhileRevalidate` issues its one fetch and returns
the response, but the `cache.put` of the background handler is refused: the primary
partition has no entry for the request, and the next `staleWhileRevalidate` call, made with
the network down, resolves with `undefined` and not with the response. -/
theorem staleWhileRevalidate_ok_response_not_stored :
    (sampleResponse 206 "part").ok = true ∧
    (staleWhileRevalidate (fun _ => .resolved (sampleResponse 206 "part")) []
      (getRequest "/videos/intro")).fetches = [getRequest "/videos/intro"] ∧
    cacheMatch (staleWhileRevalidate (fun _ => .resolved (sampleResponse 206 "part")) []
      (getRequest "/videos/intro")).caches CACHE_NAME "/videos/intro" = none ∧
    (staleWhileRevalidate (fun _ => .rejected "offline")
      (staleWhileRevalidate (fun _ => .resolved (sampleResponse 206 "part")) []
        (getRequest "/videos/intro")).caches
      (getRequest "/videos/intro")).result = .resolved none := by
  decide

/-- C13: for a request with no entry in the primary partition, `staleWhileRevalidate`
returns the response of the fetch when the fetch resolves, whatever its status; when the
fetch rejects it does not reject, it resolves with the looked-up cache value, which is
absent (`undefined`). -/
theorem staleWhileRevalidate_miss (fetch : Request → Settled Response)
    (caches : CacheStorage) (request : Request)
    (hmiss : cacheMatch caches CACHE_NAME request.url = none) :
    (∀ n, fetch request = .resolved n →
      (staleWhileRevalidate fetch caches request).result = .resolved (some n)) ∧
    (∀ error, fetch request = .rejected error →
      (staleWhileRevalidate fetch caches request).result = .resolved none) := by
  constructor
  · intro n hfetch
    unfold staleWhileRevalidate
    simp only [cacheMatch_cachesOpen, hmiss, hfetch]
    split <;> rfl
  · intro error hfetch
    unfold staleWhileRevalidate
    simp only [cacheMatch_cachesOpen, hmiss, hfetch]

/-- Witness of C13: "/about.html" on an empty storage, with a 404 answer and with the
network down. -/
theorem staleWhileRevalidate_miss_witness :
    (staleWhileRevalidate (fun _ => .resolved (sampleResponse 404 "missing")) []
      (getRequest "/about.html")).result = .resolved (some (sampleResponse 404 "missing")) ∧
    (staleWhileRevalidate (fun _ => .rejected "offline") []
      (getRequest "/about.html")).result = .resolved none :=
  ⟨(staleWhileRevalidate_miss (fun _ => .resolved (sampleResponse 404 "missing")) []
      (getRequest "/about.html") rfl).1 (sampleResponse 404 "missing") rfl,
    (staleWhileRevalidate_miss (fun _ => .rejected "offline") []
      (getRequest "/about.html") rfl).2 "offline" rfl⟩

/-! ## Total failure: C14 -/

/-- C14, the code at the failing input: "/about.html" is classified stale-while-revalidate;
with the network down and an empty cache storage `handleGetRequest` resolves with
`undefined`, without entering `handleOffline`, whereas the network-first "/contact.html"
and the cache-first "/assets/css/main.css" get the synthesized offline notice. -/
theorem handleGetRequest_total_failure_stale_while_revalidate :
    (handleGetRequest (fun _ => .rejected "offline") [] (getRequest "/about.html")).result
      = .resolved none ∧
    (handleGetRequest (fun _ => .rejected "offline") [] (getRequest "/about.html")).calls
      = [.staleWhileRevalidate] ∧
    (handleGetRequest (fun _ => .rejected "offline") [] (getRequest "/contact.html")).result
      = .resolved (some offlineResponse) ∧
    (handleGetRequest (fun _ => .rejected "offline") []
      (getRequest "/assets/css/main.css")).result = .resolved (some offlineResponse) := by
  refine ⟨by decide, by decide, ?_, ?_⟩
  · have h : shouldUseNetworkFirst (getRequest "/contact.html").pathname = true := by decide
    unfold handleGetRequest
    simp only [h, if_true]
    rfl
  · have h : shouldUseNetworkFirst (getRequest "/assets/css/main.css").pathname = false := by
      decide
    have h2 : isStaticAsset (getRequest "/assets/css/main.css").pathname = true := by decide
    unfold handleGetRequest
    simp only [h, h2, if_true]
    rfl

/-! ## Offline fallback: C15, C16, C17, C18 -/

/-- C15: for every request, with or without an Accept header, and every cache storage,
the empty one included, `handleOffline` resolves with a response object: it does not reject
and it does not resolve with an absent value. -/
theorem handleOffline_always_responds (caches : CacheStorage) (request : Request) :
    ∃ response, (handleOffline caches request).result = .resolved (some response) := by
  unfold handleOffline
  split
  · exact ⟨_, rfl⟩
  · split
    · split
      · exact ⟨_, rfl⟩
      · split
        · exact ⟨_, rfl⟩
        · exact ⟨_, rfl⟩
    · exact ⟨_, rfl⟩

/-- C16: for a request whose Accept header contains "text/html", `handleOffline` returns the
first available of the exact cache match, the cached "/index.html", the cached "/404.html"
and the synthesized notice, in this order. -/
theorem handleOffline_html_order (caches : CacheStorage) (request : Request)
    (haccept : ∃ accept, request.accept = some accept ∧ "text/html".data <:+: accept.data) :
    (∀ exact, cachesMatch caches request.url = some exact →
      (handleOffline caches request).result = .resolved (some exact)) ∧
    (cachesMatch caches request.url = none →
      ∀ home, cachesMatch caches "/index.html" = some home →
        (handleOffline caches request).result = .resolved (some home)) ∧
    (cachesMatch caches request.url = none → cachesMatch caches "/index.html" = none →
      ∀ notFound, cachesMatch caches "/404.html" = some notFound →
        (handleOffline caches request).result = .resolved (some notFound)) ∧
    (cachesMatch caches request.url = none → cachesMatch caches "/index.html" = none →
      cachesMatch caches "/404.html" = none →
        (handleOffline caches request).result = .resolved (some offlineResponse)) := by
  have hhtml : acceptsHtml request = true := (acceptsHtml_iff request).2 haccept
  refine ⟨fun exact h => ?_, fun h home hh => ?_, fun h hh notFound hn => ?_,
    fun h hh hn => ?_⟩
  · unfold handleOffline
    simp only [h]
  · unfold handleOffline
    simp only [h, hhtml, if_true, hh]
  · unfold handleOffline
    simp only [h, hhtml, if_true, hh, hn]
  · unfold handleOffline
    simp only [h, hhtml, if_true, hh, hn]

/-- Witness of C16: a navigation request for "/missing.html"; with both documents cached the
home document is returned, and the exact match wins once it is cached as well. -/
theorem handleOffline_html_order_witness :
    (handleOffline
      [(CACHE_NAME, [("/404.html", sampleResponse 200 "not found"),
        ("/index.html", sampleResponse 200 "home")])]
      ⟨"GET", "https://eteas.example", "/missing.html", "/missing.html",
        some "text/html,application/xhtml+xml"⟩).result
      = .resolved (some (sampleResponse 200 "home")) ∧
    (handleOffline
      [(CACHE_NAME, [("/index.html", sampleResponse 200 "home"),
        ("/missing.html", sampleResponse 200 "exact")])]
      ⟨"GET", "https://eteas.example", "/missing.html", "/missing.html",
        some "text/html,application/xhtml+xml"⟩).result
      = .resolved (some (sampleResponse 200 "exact")) :=
  ⟨(handleOffline_html_order
      [(CACHE_NAME, [("/404.html", sampleResponse 200 "not found"),
        ("/index.html", sampleResponse 200 "home")])]
      ⟨"GET", "https://eteas.example", "/missing.html", "/missing.html",
        some "text/html,application/xhtml+xml"⟩
      ⟨"text/html,application/xhtml+xml", rfl, by decide⟩).2.1 (by decide)
      (sampleResponse 200 "home") (by decide),
    (handleOffline_html_order
      [(CACHE_NAME, [("/index.html", sampleResponse 200 "home"),
        ("/missing.html", sampleResponse 200 "exact")])]
      ⟨"GET", "https://eteas.example", "/missing.html", "/missing.html",
        some "text/html,application/xhtml+xml"⟩
      ⟨"text/html,application/xhtml+xml", rfl, by decide⟩).1
      (sampleResponse 200 "exact") (by decide)⟩

/-- Counterexample to C17 as stated: a request for "/data.json" that sends no Accept header
has no exact match and gets no home document; "/404.html" is cached, and `handleOffline`
returns the synthesized notice, not the cached "/404.html". -/
theorem handleOffline_not_found_skipped_without_html :
    cachesMatch [(CACHE_NAME, [("/404.html", sampleResponse 200 "not found")])]
      (getRequest "/data.json").url = none ∧
    cachesMatch [(CACHE_NAME, [("/404.html", sampleResponse 200 "not found")])] "/404.html"
      = some (sampleResponse 200 "not found") ∧
    (handleOffline [(CACHE_NAME, [("/404.html", sampleResponse 200 "not found")])]
      (getRequest "/data.json")).result = .resolved (some offlineResponse) ∧
    (handleOffline [(CACHE_NAME, [("/404.html", sampleResponse 200 "not found")])]
      (getRequest "/data.json")).result ≠ .resolved (some (sampleResponse 200 "not found")) := by
  have hrun : (handleOffline [(CACHE_NAME, [("/404.html", sampleResponse 200 "not found")])]
      (getRequest "/data.json")).result = .resolved (some offlineResponse) := by
    have hmiss : cachesMatch [(CACHE_NAME, [("/404.html", sampleResponse 200 "not found")])]
        (getRequest "/data.json").url = none := by decide
    unfold handleOffline
    simp only [hmiss]
    rfl
  refine ⟨by decide, by decide, hrun, ?_⟩
  rw [hrun]
  intro h
  have hheaders : offlineResponse.headers = (sampleResponse 200 "not found").headers := by
    injection h with h
    injection h with h
    rw [h]
  simp [offlineResponse, sampleResponse] at hheaders

/-- C17, amended: step 3 of the fallback order lies inside the test of the Accept header.
For a request with no exact cache match: if its Accept header contains "text/html" and
"/index.html" is not cached, a cached "/404.html" is returned; if its Accept header does
not contain "text/html", or is missing, the synthesized notice is returned, whether or not
"/404.html" is cached. -/
theorem handleOffline_not_found_only_for_html (caches : CacheStorage) (request : Request)
    (hmiss : cachesMatch caches request.url = none) :
    ((∃ accept, request.accept = some accept ∧ "text/html".data <:+: accept.data) →
      cachesMatch caches "/index.html" = none →
      ∀ notFound, cachesMatch caches "/404.html" = some notFound →
        (handleOffline caches request).result = .resolved (some notFound)) ∧
    ((¬ ∃ accept, request.accept = some accept ∧ "text/html".data <:+: accept.data) →
      (handleOffline caches request).result = .resolved (some offlineResponse)) := by
  rw [← acceptsHtml_iff]
  constructor
  · intro hhtml hh notFound hn
    unfold handleOffline
    simp only [hmiss, hhtml, if_true, hh, hn]
  · intro hhtml
    unfold handleOffline
    simp only [hmiss, hhtml]
    rfl

/-- Witness of C17, amended: "/404.html" is the only cached document; a navigation request
gets it, a request without Accept header gets the synthesized notice. -/
theorem handleOffline_not_found_only_for_html_witness :
    (handleOffline [(CACHE_NAME, [("/404.html", sampleResponse 200 "not found")])]
      ⟨"GET", "https://eteas.example", "/missing.html", "/missing.html",
        some "text/html"⟩).result = .resolved (some (sampleResponse 200 "not found")) ∧
    (handleOffline [(CACHE_NAME, [("/404.html", sampleResponse 200 "not found")])]
      (getRequest "/data.json")).result = .resolved (some offlineResponse) :=
  ⟨(handleOffline_not_found_only_for_html
      [(CACHE_NAME, [("/404.html", sampleResponse 200 "not found")])]
      ⟨"GET", "https://eteas.example", "/missing.html", "/missing.html", some "text/html"⟩
      (by decide)).1 ⟨"text/html", rfl, by decide⟩ (by decide)
      (sampleResponse 200 "not found") (by decide),
    (handleOffline_not_found_only_for_html
      [(CACHE_NAME, [("/404.html", sampleResponse 200 "not found")])]
      (getRequest "/data.json") (by decide)).2 (by simp [getRequest])⟩

/-- C18: when every lookup that `handleOffline` makes misses, it returns the fixed notice:
the body is the text `OFFLINE_PAGE`, the same for every request and cache storage, the only
header is Content-Type with the value "text/html; charset=utf-8", no fetch is issued and the
cache storage is left as it was. -/
theorem handleOffline_fixed_notice (caches : CacheStorage) (request : Request)
    (hexact : cachesMatch caches request.url = none)
    (hdocs : acceptsHtml request = true →
      cachesMatch caches "/index.html" = none ∧ cachesMatch caches "/404.html" = none) :
    (handleOffline caches request).result
      = .resolved (some ⟨200, [("Content-Type", "text/html; charset=utf-8")], OFFLINE_PAGE⟩) ∧
    (handleOffline caches request).caches = caches ∧
    (handleOffline caches request).fetches = [] := by
  have hrun : handleOffline caches request
      = ⟨.resolved (some offlineResponse), caches, [], [.handleOffline]⟩ := by
    by_cases hhtml : acceptsHtml request = true
    · obtain ⟨hh, hn⟩ := hdocs hhtml
      unfold handleOffline
      simp only [hexact, hhtml, if_true, hh, hn]
    · unfold handleOffline
      simp only [hexact, hhtml]
      rfl
  rw [hrun]
  exact ⟨rfl, rfl, rfl⟩

/-- Witness of C18: a navigation request on an empty cache storage. -/
theorem handleOffline_fixed_notice_witness :
    (handleOffline []
      ⟨"GET", "https://eteas.example", "/missing.html", "/missing.html",
        some "text/html"⟩).result
      = .resolved (some ⟨200, [("Content-Type", "text/html; charset=utf-8")], OFFLINE_PAGE⟩) ∧
    (handleOffline []
      ⟨"GET", "https://eteas.example", "/missing.html", "/missing.html",
        some "text/html"⟩).caches = [] :=
  ⟨(handleOffline_fixed_notice []
      ⟨"GET", "https://eteas.example", "/missing.html", "/missing.html", some "text/html"⟩
      rfl (fun _ => ⟨rfl, rfl⟩)).1,
    (handleOffline_fixed_notice []
      ⟨"GET", "https://eteas.example", "/missing.html", "/missing.html", some "text/html"⟩
      rfl (fun _ => ⟨rfl, rfl⟩)).2.1⟩

/-! ## Eviction: C19, C20 -/

/-- C19: whatever partitions exist before activation, the names existing after the eviction
of the activate listener are exactly the earlier names equal to "eteas-energy-v1.0.0" or
"eteas-offline-v1.0.0", in their order; no partition of another name is left, and a
partition of one of the two names is still there with its contents as they were. -/
theorem activate_evicts_all_but_current (caches : CacheStorage) :
    cachesKeys (activateListener caches).caches
      = (cachesKeys caches).filter (fun name =>
          decide (name = "eteas-energy-v1.0.0" ∨ name = "eteas-offline-v1.0.0")) ∧
    (∀ name, name ≠ "eteas-energy-v1.0.0" → name ≠ "eteas-offline-v1.0.0" →
      cachesHas (activateListener caches).caches name = false) ∧
    (∀ p ∈ caches, p.1 = "eteas-energy-v1.0.0" ∨ p.1 = "eteas-offline-v1.0.0" →
      p ∈ (activateListener caches).caches) ∧
    (∀ name url, name = "eteas-energy-v1.0.0" ∨ name = "eteas-offline-v1.0.0" →
      cacheMatch (activateListener caches).caches name url = cacheMatch caches name url) := by
  have hrun := activateListener_caches caches
  simp only [CACHE_NAME, OFFLINE_CACHE_NAME] at hrun
  rw [hrun]
  refine ⟨?_, fun name h1 h2 => ?_, fun p hp hkeep => ?_, fun name url hkeep => ?_⟩
  · unfold cachesKeys
    rw [List.filter_map]
    rfl
  · unfold cachesHas
    rw [Bool.eq_false_iff]
    intro hany
    rw [List.any_eq_true] at hany
    obtain ⟨p, hp, hname⟩ := hany
    have hpn : p.1 = name := by simpa using hname
    have hk := (List.mem_filter.1 hp).2
    rw [hpn] at hk
    simp [h1, h2] at hk
  · exact List.mem_filter.2 ⟨hp, by simpa using hkeep⟩
  · exact cacheMatch_filter_keep caches
      (fun n => decide (n = "eteas-energy-v1.0.0" ∨ n = "eteas-offline-v1.0.0")) name url
      (by simpa using hkeep)

/-- Witness of C19: a storage with the partition of an earlier version between the two
current ones. -/
theorem activate_evicts_all_but_current_witness :
    cachesKeys (activateListener
      [("eteas-energy-v1.0.0", [("/", sampleResponse 200 "home")]),
        ("eteas-energy-v0.9.0", [("/", sampleResponse 200 "old home")]),
        ("eteas-offline-v1.0.0", [])]).caches
      = ["eteas-energy-v1.0.0", "eteas-offline-v1.0.0"] ∧
    cachesHas (activateListener
      [("eteas-energy-v1.0.0", [("/", sampleResponse 200 "home")]),
        ("eteas-energy-v0.9.0", [("/", sampleResponse 200 "old home")]),
        ("eteas-offline-v1.0.0", [])]).caches "eteas-energy-v0.9.0" = false :=
  ⟨(activate_evicts_all_but_current
      [("eteas-energy-v1.0.0", [("/", sampleResponse 200 "home")]),
        ("eteas-energy-v0.9.0", [("/", sampleResponse 200 "old home")]),
        ("eteas-offline-v1.0.0", [])]).1.trans (by decide),
    (activate_evicts_all_but_current
      [("eteas-energy-v1.0.0", [("/", sampleResponse 200 "home")]),
        ("eteas-energy-v0.9.0", [("/", sampleResponse 200 "old home")]),
        ("eteas-offline-v1.0.0", [])]).2.1 "eteas-energy-v0.9.0" (by decide) (by decide)⟩

/-- C20: `cleanOldCaches` (filter, then delete) makes the same `caches.delete` calls, in
the same order, as the activate listener (conditional delete inside `map`) makes before it
claims the clients, and leaves the same cache storage; on a CLEAN_CACHE message the message
listener does this eviction and then posts `{ success: true }` on the first port of the
event. -/
theorem cleanOldCaches_matches_activate (caches : CacheStorage) (event : MessageEvent)
    (port : Nat) (rest : List Nat)
    (htype : event.type = "CLEAN_CACHE") (hports : event.ports = port :: rest) :
    (cleanOldCaches caches).caches = (activateListener caches).caches ∧
    (activateListener caches).effects = (cleanOldCaches caches).effects ++ [.clientsClaim] ∧
    (∀ name, Effect.cacheDelete name ∈ (cleanOldCaches caches).effects ↔
      Effect.cacheDelete name ∈ (activateListener caches).effects) ∧
    (messageListener caches event).caches = (activateListener caches).caches ∧
    (messageListener caches event).effects
      = (cleanOldCaches caches).effects ++ [.postMessage port (.success true)] := by
  have hclean := cleanOldCaches_eq caches
  have hcaches := activateListener_caches caches
  have heffects := activateListener_effects caches
  have hmsg : messageListener caches event
      = ⟨(cleanOldCaches caches).caches,
          (cleanOldCaches caches).effects ++ [.postMessage port (.success true)]⟩ := by
    unfold messageListener
    rw [htype, hports]
    simp
  rw [hmsg, hcaches, heffects, hclean]
  refine ⟨rfl, rfl, fun name => ?_, rfl, rfl⟩
  simp

/-- Witness of C20: a CLEAN_CACHE message with one reply port, on a storage that holds the
partition of an earlier version. -/
theorem cleanOldCaches_matches_activate_witness :
    (cleanOldCaches
      [("eteas-energy-v0.9.0", []), ("eteas-energy-v1.0.0", [])]).caches
      = (activateListener [("eteas-energy-v0.9.0", []), ("eteas-energy-v1.0.0", [])]).caches ∧
    (messageListener [("eteas-energy-v0.9.0", []), ("eteas-energy-v1.0.0", [])]
      ⟨"CLEAN_CACHE", [7]⟩).effects
      = (cleanOldCaches [("eteas-energy-v0.9.0", []), ("eteas-energy-v1.0.0", [])]).effects
        ++ [.postMessage 7 (.success true)] :=
  ⟨(cleanOldCaches_matches_activate
      [("eteas-energy-v0.9.0", []), ("eteas-energy-v1.0.0", [])] ⟨"CLEAN_CACHE", [7]⟩ 7 []
      rfl rfl).1,
    (cleanOldCaches_matches_activate
      [("eteas-energy-v0.9.0", []), ("eteas-energy-v1.0.0", [])] ⟨"CLEAN_CACHE", [7]⟩ 7 []
      rfl rfl).2.2.2.2⟩

/-! ## Installation: C21 -/

/-- Counterexample to C21 as stated: the fetch of the core asset "/404.html" answers 404, so
`cache.addAll` rejects; the promise that the install listener gives to `event.waitUntil`
resolves all the same, the error having been logged by the `catch` handler. -/
theorem install_resolves_when_core_asset_fails :
    (cacheAddAll
      (fun url => if url = "/404.html" then .resolved (sampleResponse 404 "missing")
        else .resolved (sampleResponse 200 "asset"))
      (cachesOpen [] CACHE_NAME) CACHE_NAME CORE_ASSETS).1
      = .rejected "TypeError: bad response status" ∧
    (installListener
      (fun url => if url = "/404.html" then .resolved (sampleResponse 404 "missing")
        else .resolved (sampleResponse 200 "asset")) []).result = .resolved () ∧
    (installListener
      (fun url => if url = "/404.html" then .resolved (sampleResponse 404 "missing")
        else .resolved (sampleResponse 200 "asset")) []).result
      ≠ .rejected "TypeError: bad response status" := by
  decide

/-- C21, amended: the list of core assets has 14 entries, and whatever happens to them the
promise that the install listener gives to `event.waitUntil` resolves. If `cache.addAll`
rejects, the `catch` handler logs the error, `skipWaiting` is not called, and the storage
is the one `caches.open` of the primary partition left: no core asset has been stored by
the install. -/
theorem install_never_rejects (fetchUrl : String → Settled Response)
    (caches : CacheStorage) :
    CORE_ASSETS.length = 14 ∧
    (installListener fetchUrl caches).result = .resolved () ∧
    (∀ error,
      (cacheAddAll fetchUrl (cachesOpen caches CACHE_NAME) CACHE_NAME CORE_ASSETS).1
        = .rejected error →
      (installListener fetchUrl caches).effects = [] ∧
      (installListener fetchUrl caches).errors = [error] ∧
      (installListener fetchUrl caches).caches = cachesOpen caches CACHE_NAME) := by
  refine ⟨rfl, ?_, fun error herr => ?_⟩
  · unfold installListener
    dsimp only
    split <;> rfl
  · have hstore : (cacheAddAll fetchUrl (cachesOpen caches CACHE_NAME) CACHE_NAME
        CORE_ASSETS).2 = cachesOpen caches CACHE_NAME := by
      unfold cacheAddAll at herr ⊢
      cases hall : fetchAll fetchUrl CORE_ASSETS with
      | resolved pairs => rw [hall] at herr; cases herr
      | rejected e => rfl
    unfold installListener
    dsimp only
    cases hadd : cacheAddAll fetchUrl (cachesOpen caches CACHE_NAME) CACHE_NAME
        CORE_ASSETS with
    | mk settled stored =>
      rw [hadd] at herr hstore
      dsimp only at herr hstore
      rw [herr, hstore]
      exact ⟨rfl, rfl, rfl⟩

/-- Witness of C21, amended: the core asset "/404.html" answers 404 on an empty storage. -/
theorem install_never_rejects_witness :
    (installListener
      (fun url => if url = "/404.html" then .resolved (sampleResponse 404 "missing")
        else .resolved (sampleResponse 200 "asset")) []).result = .resolved () ∧
    (installListener
      (fun url => if url = "/404.html" then .resolved (sampleResponse 404 "missing")
        else .resolved (sampleResponse 200 "asset")) []).effects = [] :=
  ⟨(install_never_rejects
      (fun url => if url = "/404.html" then .resolved (sampleResponse 404 "missing")
        else .resolved (sampleResponse 200 "asset")) []).2.1,
    ((install_never_rejects
      (fun url => if url = "/404.html" then .resolved (sampleResponse 404 "missing")
        else .resolved (sampleResponse 200 "asset")) []).2.2
      "TypeError: bad response status" (by decide)).1⟩

/-! ## Interception: C22 -/

/-- C22: the fetch listener calls `event.respondWith`, with the promise of
`handleGetRequest`, if and only if the origin of the request URL is the origin of the
worker and the method is "GET"; for a cross-origin request and for a request of another
method it does nothing: no `respondWith`, no fetch, no call into the cache, the storage
as it was. -/
theorem fetchListener_intercepts_iff (locationOrigin : String)
    (fetch : Request → Settled Response) (caches : CacheStorage) (request : Request) :
    ((fetchListener locationOrigin fetch caches request).respondWith ≠ none ↔
      request.origin = locationOrigin ∧ request.method = "GET") ∧
    (request.origin = locationOrigin ∧ request.method = "GET" →
      (fetchListener locationOrigin fetch caches request).respondWith
        = some (handleGetRequest fetch caches request).result ∧
      (fetchListener locationOrigin fetch caches request).caches
        = (handleGetRequest fetch caches request).caches) ∧
    (¬ (request.origin = locationOrigin ∧ request.method = "GET") →
      fetchListener locationOrigin fetch caches request = ⟨none, caches, [], []⟩) := by
  by_cases ho : request.origin = locationOrigin
  · by_cases hm : request.method = "GET"
    · have hrun : fetchListener locationOrigin fetch caches request
          = ⟨some (handleGetRequest fetch caches request).result,
              (handleGetRequest fetch caches request).caches,
              (handleGetRequest fetch caches request).fetches,
              (handleGetRequest fetch caches request).calls⟩ := by
        unfold fetchListener
        simp [ho, hm]
      rw [hrun]
      exact ⟨⟨fun _ => ⟨ho, hm⟩, fun _ => by simp⟩, fun _ => ⟨rfl, rfl⟩,
        fun h => absurd ⟨ho, hm⟩ h⟩
    · have hrun : fetchListener locationOrigin fetch caches request
          = ⟨none, caches, [], []⟩ := by
        unfold fetchListener
        simp [ho, hm]
      rw [hrun]
      exact ⟨⟨fun h => absurd rfl h, fun h => absurd h.2 hm⟩, fun h => absurd h.2 hm,
        fun _ => rfl⟩
  · have hrun : fetchListener locationOrigin fetch caches request
        = ⟨none, caches, [], []⟩ := by
      unfold fetchListener
      simp [ho]
    rw [hrun]
    exact ⟨⟨fun h => absurd rfl h, fun h => absurd h.1 ho⟩, fun h => absurd h.1 ho,
      fun _ => rfl⟩

/-- Witness of C22: a POST to the worker's own origin and a GET to another origin pass
through; a GET to the worker's own origin is answered. -/
theorem fetchListener_intercepts_iff_witness :
    fetchListener "https://eteas.example" (fun _ => .rejected "offline") []
      ⟨"POST", "https://eteas.example", "/contact", "/contact", none⟩
      = ⟨none, [], [], []⟩ ∧
    fetchListener "https://eteas.example" (fun _ => .rejected "offline") []
      ⟨"GET", "https://fonts.example", "/font.woff2", "/font.woff2", none⟩
      = ⟨none, [], [], []⟩ ∧
    (fetchListener "https://eteas.example" (fun _ => .rejected "offline") []
      (getRequest "/contact.html")).respondWith ≠ none :=
  ⟨(fetchListener_intercepts_iff "https://eteas.example" (fun _ => .rejected "offline") []
      ⟨"POST", "https://eteas.example", "/contact", "/contact", none⟩).2.2 (by decide),
    (fetchListener_intercepts_iff "https://eteas.example" (fun _ => .rejected "offline") []
      ⟨"GET", "https://fonts.example", "/font.woff2", "/font.woff2", none⟩).2.2 (by decide),
    (fetchListener_intercepts_iff "https://eteas.example" (fun _ => .rejected "offline") []
      (getRequest "/contact.html")).1.2 (by decide)⟩

/-! ## Activation order: C23 -/

/-- A listener whose first callback did not return its `Promise.all` would claim the clients
while a deletion is pending: the order proved below comes from the promises. -/
theorem not_returning_claims_before_deletion :
    (run [0, 0, 0] (start activateChainNotReturning
      [("eteas-energy-v0.9.0", []), ("eteas-energy-v1.0.0", [])])).trace.map Prod.fst
      = [.started .keys, .completed .keys, .started (.delete "eteas-energy-v0.9.0"),
          .started .claim, .completed (.delete "eteas-energy-v0.9.0"), .completed .claim] := by
  decide

/-- C23: in every execution of the promise chain of the activate listener, whichever pending
operation completes at each step, `clients.claim` is called at most once, and where it is
called, the deletion of every partition whose name is neither "eteas-energy-v1.0.0" nor
"eteas-offline-v1.0.0" has completed before the call and the storage at the call is the
evicted one; and an execution of one step more than there are partitions does call it. -/
theorem activate_claim_waits_for_deletions (schedule : List Nat) (caches : CacheStorage) :
    ((∀ e ∈ (run schedule (start activateChain caches)).trace,
        e.1 ≠ OpEvent.started Op.claim) ∨
      ∃ pre cs post,
        (run schedule (start activateChain caches)).trace
          = pre ++ (OpEvent.started Op.claim, cs) :: post ∧
        (∀ e ∈ pre, e.1 ≠ OpEvent.started Op.claim) ∧
        (∀ e ∈ post, e.1 ≠ OpEvent.started Op.claim) ∧
        (∀ name ∈ cachesKeys caches, name ≠ "eteas-energy-v1.0.0" →
          name ≠ "eteas-offline-v1.0.0" →
          ∃ c, (OpEvent.completed (Op.delete name), c) ∈ pre) ∧
        cs = (activateListener caches).caches) ∧
    ((cachesKeys caches).length + 1 ≤ schedule.length →
      ∃ cs, (OpEvent.started Op.claim, cs) ∈
        (run schedule (start activateChain caches)).trace) := by
  obtain ⟨hsafe, hlive⟩ := run_of_phaseKeys caches schedule (start activateChain caches)
    (phaseKeys_start caches)
  have hshape : ∀ trace, ClaimedAfterEviction caches trace →
      ∃ pre cs post, trace = pre ++ (OpEvent.started Op.claim, cs) :: post ∧
        (∀ e ∈ pre, e.1 ≠ OpEvent.started Op.claim) ∧
        (∀ e ∈ post, e.1 ≠ OpEvent.started Op.claim) ∧
        (∀ name ∈ cachesKeys caches, name ≠ "eteas-energy-v1.0.0" →
          name ≠ "eteas-offline-v1.0.0" →
          ∃ c, (OpEvent.completed (Op.delete name), c) ∈ pre) ∧
        cs = (activateListener caches).caches := by
    rintro trace ⟨pre, cs, post, htrace, hpre, hpost, hdel, hcs⟩
    exact ⟨pre, cs, post, htrace, hpre, hpost, hdel,
      hcs.trans (activateListener_caches caches).symm⟩
  refine ⟨?_, fun hlen => ?_⟩
  · rcases hsafe with h | h
    · exact Or.inl h
    · exact Or.inr (hshape _ h)
  · obtain ⟨pre, cs, post, htrace, _⟩ := hlive hlen
    exact ⟨cs, by rw [htrace]; simp⟩

/-- Witness of C23: two partitions of earlier versions next to the current one; the deletion
started second completes first, and `clients.claim` is called after both. -/
theorem activate_claim_waits_for_deletions_witness :
    (run [0, 1, 0, 0] (start activateChain
      [("eteas-energy-v0.8.0", []), ("eteas-energy-v1.0.0", []),
        ("eteas-energy-v0.9.0", [])])).trace.map Prod.fst
      = [.started .keys, .completed .keys, .started (.delete "eteas-energy-v0.8.0"),
          .started (.delete "eteas-energy-v0.9.0"),
          .completed (.delete "eteas-energy-v0.9.0"),
          .completed (.delete "eteas-energy-v0.8.0"), .started .claim, .completed .claim] ∧
    ∃ cs, (OpEvent.started Op.claim, cs) ∈
      (run [0, 1, 0, 0] (start activateChain
        [("eteas-energy-v0.8.0", []), ("eteas-energy-v1.0.0", []),
          ("eteas-energy-v0.9.0", [])])).trace :=
  ⟨by decide,
    (activate_claim_waits_for_deletions [0, 1, 0, 0]
      [("eteas-energy-v0.8.0", []), ("eteas-energy-v1.0.0", []),
        ("eteas-energy-v0.9.0", [])]).2 (by decide)⟩

/-! ## Frame of request handling: C24, C26, C27, C28 -/

/-- C24: when the network fetch rejects, no executor changes the contents of a partition.
`networkFirst` and `cacheFirst` leave the storage as it was; `staleWhileRevalidate` leaves
the storage its `caches.open` made, in which every earlier partition is present with its
entries, the only partition that can be new is the primary one, empty, and every lookup in
every partition answers what it answered before. -/
theorem rejected_fetch_leaves_cache (fetch : Request → Settled Response)
    (caches : CacheStorage) (request : Request) (error : String)
    (hfetch : fetch request = .rejected error) :
    (networkFirst fetch caches request).caches = caches ∧
    (cacheFirst fetch caches request).caches = caches ∧
    (∀ p ∈ caches, p ∈ (staleWhileRevalidate fetch caches request).caches) ∧
    (∀ p ∈ (staleWhileRevalidate fetch caches request).caches,
      p ∈ caches ∨ p = (CACHE_NAME, [])) ∧
    (∀ name url, cacheMatch (staleWhileRevalidate fetch caches request).caches name url
      = cacheMatch caches name url) ∧
    (cachesHas caches CACHE_NAME = true →
      (staleWhileRevalidate fetch caches request).caches = caches) := by
  have hnf : (networkFirst fetch caches request).caches = caches := by
    unfold networkFirst
    rw [hfetch]
    dsimp only
    split <;> rfl
  have hcf : (cacheFirst fetch caches request).caches = caches := by
    unfold cacheFirst
    rw [hfetch]
    split <;> rfl
  have hswr : (staleWhileRevalidate fetch caches request).caches
      = cachesOpen caches CACHE_NAME := by
    unfold staleWhileRevalidate
    rw [hfetch]
    dsimp only
    split <;> rfl
  rw [hswr]
  refine ⟨hnf, hcf, fun p hp => ?_, fun p hp => ?_, fun name url => ?_, fun hhas => ?_⟩
  · unfold cachesOpen
    split
    · exact hp
    · exact List.mem_append_left _ hp
  · unfold cachesOpen at hp
    split at hp
    · exact Or.inl hp
    · rcases List.mem_append.1 hp with h | h
      · exact Or.inl h
      · exact Or.inr (List.mem_singleton.1 h)
  · exact cacheMatch_cachesOpen caches CACHE_NAME name url
  · exact cachesOpen_of_has caches CACHE_NAME hhas

/-- Witness of C24: "/about.html" is cached in the primary partition and the network is
down; `staleWhileRevalidate` returns the cached document and leaves the storage as it
was. -/
theorem rejected_fetch_leaves_cache_witness :
    (staleWhileRevalidate (fun _ => .rejected "offline")
      [(CACHE_NAME, [("/about.html", sampleResponse 200 "about")])]
      (getRequest "/about.html")).result = .resolved (some (sampleResponse 200 "about")) ∧
    (staleWhileRevalidate (fun _ => .rejected "offline")
      [(CACHE_NAME, [("/about.html", sampleResponse 200 "about")])]
      (getRequest "/about.html")).caches
      = [(CACHE_NAME, [("/about.html", sampleResponse 200 "about")])] :=
  ⟨by decide,
    (rejected_fetch_leaves_cache (fun _ => .rejected "offline")
      [(CACHE_NAME, [("/about.html", sampleResponse 200 "about")])]
      (getRequest "/about.html") "offline" rfl).2.2.2.2.2 (by decide)⟩

/-- C26: whenever `handleGetRequest` reaches `handleOffline`, the executor that rejected
had looked the request up with `caches.match` and found nothing, and it has left the
storage as it was; the first step of `handleOffline` therefore misses, and its result is
the cached "/index.html" or "/404.html" for a request that accepts HTML, and the
synthesized notice otherwise. -/
theorem handleOffline_first_step_misses (fetch : Request → Settled Response)
    (caches : CacheStorage) (request : Request)
    (hreached : Fn.handleOffline ∈ (handleGetRequest fetch caches request).calls) :
    cachesMatch caches request.url = none ∧
    (handleGetRequest fetch caches request).caches = caches ∧
    (handleGetRequest fetch caches request).result
      = .resolved (some
          (if acceptsHtml request then
            match cachesMatch caches "/index.html" with
            | some home => home
            | none =>
              match cachesMatch caches "/404.html" with
              | some notFound => notFound
              | none => offlineResponse
          else offlineResponse)) := by
  cases hres : (if shouldUseNetworkFirst request.pathname then
      networkFirst fetch caches request
      else if isStaticAsset request.pathname then cacheFirst fetch caches request
      else staleWhileRevalidate fetch caches request).result with
  | resolved v =>
    exfalso
    rw [handleGetRequest_of_resolved fetch caches request v hres] at hreached
    by_cases h1 : shouldUseNetworkFirst request.pathname = true
    · rw [if_pos h1, networkFirst_calls] at hreached
      simp at hreached
    · by_cases h2 : isStaticAsset request.pathname = true
      · rw [if_neg h1, if_pos h2, cacheFirst_calls] at hreached
        simp at hreached
      · rw [if_neg h1, if_neg h2, staleWhileRevalidate_calls] at hreached
        simp at hreached
  | rejected e =>
    obtain ⟨hmiss, _, _, hrun⟩ := handleGetRequest_of_rejected fetch caches request e hres
    rw [hrun]
    refine ⟨hmiss, rfl, ?_⟩
    dsimp only
    unfold handleOffline
    simp only [hmiss]
    by_cases hhtml : acceptsHtml request = true
    · simp only [hhtml, if_true]
      split
      · rfl
      · split <;> rfl
    · simp only [hhtml]
      rfl

/-- Witness of C26: the network-first "/contact.html" with the network down, on a storage
that holds the home document only, asked for by a navigation request. -/
theorem handleOffline_first_step_misses_witness :
    cachesMatch [(CACHE_NAME, [("/index.html", sampleResponse 200 "home")])]
      "/contact.html" = none ∧
    (handleGetRequest (fun _ => .rejected "offline")
      [(CACHE_NAME, [("/index.html", sampleResponse 200 "home")])]
      ⟨"GET", "https://eteas.example", "/contact.html", "/contact.html",
        some "text/html"⟩).caches
      = [(CACHE_NAME, [("/index.html", sampleResponse 200 "home")])] :=
  ⟨(handleOffline_first_step_misses (fun _ => .rejected "offline")
      [(CACHE_NAME, [("/index.html", sampleResponse 200 "home")])]
      ⟨"GET", "https://eteas.example", "/contact.html", "/contact.html", some "text/html"⟩
      (by decide)).1,
    (handleOffline_first_step_misses (fun _ => .rejected "offline")
      [(CACHE_NAME, [("/index.html", sampleResponse 200 "home")])]
      ⟨"GET", "https://eteas.example", "/contact.html", "/contact.html", some "text/html"⟩
      (by decide)).2.1⟩

/-- C27: `handleGetRequest` never rejects, whatever the request, the cache storage and the
network do: a rejection of the selected executor is answered with the result of
`handleOffline(request)`, and `handleOffline` is entered only when the selected executor
has rejected. -/
theorem handleGetRequest_never_rejects (fetch : Request → Settled Response)
    (caches : CacheStorage) (request : Request) :
    (∃ v, (handleGetRequest fetch caches request).result = .resolved v) ∧
    (Fn.handleOffline ∈ (handleGetRequest fetch caches request).calls ↔
      ∃ error,
        (if shouldUseNetworkFirst request.pathname then networkFirst fetch caches request
          else if isStaticAsset request.pathname then cacheFirst fetch caches request
          else staleWhileRevalidate fetch caches request).result = .rejected error) ∧
    (∀ error,
      (if shouldUseNetworkFirst request.pathname then networkFirst fetch caches request
        else if isStaticAsset request.pathname then cacheFirst fetch caches request
        else staleWhileRevalidate fetch caches request).result = .rejected error →
      (handleGetRequest fetch caches request).result
        = (handleOffline caches request).result) := by
  cases hres : (if shouldUseNetworkFirst request.pathname then
      networkFirst fetch caches request
      else if isStaticAsset request.pathname then cacheFirst fetch caches request
      else staleWhileRevalidate fetch caches request).result with
  | resolved v =>
    have hrun := handleGetRequest_of_resolved fetch caches request v hres
    refine ⟨⟨v, by rw [hrun, hres]⟩, ⟨fun hreached => ?_, fun h => ?_⟩, fun error h => ?_⟩
    · exfalso
      rw [hrun] at hreached
      by_cases h1 : shouldUseNetworkFirst request.pathname = true
      · rw [if_pos h1, networkFirst_calls] at hreached
        simp at hreached
      · by_cases h2 : isStaticAsset request.pathname = true
        · rw [if_neg h1, if_pos h2, cacheFirst_calls] at hreached
          simp at hreached
        · rw [if_neg h1, if_neg h2, staleWhileRevalidate_calls] at hreached
          simp at hreached
    · obtain ⟨error, herr⟩ := h
      cases herr
    · cases h
  | rejected e =>
    obtain ⟨_, _, _, hrun⟩ := handleGetRequest_of_rejected fetch caches request e hres
    obtain ⟨response, hresp⟩ := handleOffline_responds caches request
    refine ⟨⟨some response, by rw [hrun]; exact hresp⟩, ⟨fun _ => ⟨e, rfl⟩, fun _ => ?_⟩,
      fun error _ => by rw [hrun]⟩
    rw [hrun]
    dsimp only
    split <;> simp

/-- C28: request handling writes to the primary partition only. After `handleGetRequest`
the partitions of every other name are the ones that were there, with their entries and in
their order, and a lookup gives what it gave before in every partition and for every URL,
except possibly the lookup of the handled request in the primary partition. -/
theorem handleGetRequest_writes_primary_only (fetch : Request → Settled Response)
    (caches : CacheStorage) (request : Request) :
    (handleGetRequest fetch caches request).caches.filter
        (fun p => decide (p.1 ≠ "eteas-energy-v1.0.0"))
      = caches.filter (fun p => decide (p.1 ≠ "eteas-energy-v1.0.0")) ∧
    (∀ name url, name ≠ "eteas-energy-v1.0.0" ∨ url ≠ request.url →
      cacheMatch (handleGetRequest fetch caches request).caches name url
        = cacheMatch caches name url) := by
  have hopenf := cachesOpen_filter_other caches CACHE_NAME
  have hputf := fun n => cachePut_filter_other (cachesOpen caches CACHE_NAME) CACHE_NAME
    request n
  simp only [CACHE_NAME] at hopenf hputf
  rcases handleGetRequest_caches_cases fetch caches request with h | h | ⟨n, h⟩
  · rw [h]
    exact ⟨rfl, fun _ _ _ => rfl⟩
  · rw [h]
    exact ⟨hopenf, fun name url _ => cacheMatch_cachesOpen caches CACHE_NAME name url⟩
  · rw [h]
    refine ⟨(hputf n).trans hopenf, fun name url hother => ?_⟩
    exact (cacheMatch_cachePut_other (cachesOpen caches CACHE_NAME) CACHE_NAME request n
      name url hother).trans (cacheMatch_cachesOpen caches CACHE_NAME name url)

/-- Witness of C28: "/about.html" is fetched with an ok answer while the offline partition
holds an entry for it; the offline partition is as it was. -/
theorem handleGetRequest_writes_primary_only_witness :
    cacheMatch (handleGetRequest (fun _ => .resolved (sampleResponse 200 "new"))
      [("eteas-offline-v1.0.0", [("/about.html", sampleResponse 200 "kept")])]
      (getRequest "/about.html")).caches "eteas-offline-v1.0.0" "/about.html"
      = cacheMatch [("eteas-offline-v1.0.0", [("/about.html", sampleResponse 200 "kept")])]
          "eteas-offline-v1.0.0" "/about.html" :=
  (handleGetRequest_writes_primary_only (fun _ => .resolved (sampleResponse 200 "new"))
    [("eteas-offline-v1.0.0", [("/about.html", sampleResponse 200 "kept")])]
    (getRequest "/about.html")).2 "eteas-offline-v1.0.0" "/about.html"
    (Or.inl (by decide))

/-! ## Background sync: C25 -/

/-- C25: for every list of pending forms and every behaviour of the network,
`syncContactForms` issues one POST to "/contact" per pending form, in the order of the
list, with the data of the form as body; it removes the forms whose POST resolved with an
ok response and no other, goes on after a failed or rejected POST, and its promise
resolves, also when the pending forms cannot be read. -/
theorem syncContactForms_posts_each_once (pendingForms : List Form)
    (post : Nat → Settled Response) :
    (syncContactForms (.resolved pendingForms) post).posts
      = pendingForms.map (fun form => ("/contact", form.data)) ∧
    (syncContactForms (.resolved pendingForms) post).removed
      = (pendingForms.enum.filter (fun entry =>
          match post entry.1 with
          | .resolved response => response.ok
          | .rejected _ => false)).map (fun entry => entry.2.id) ∧
    (syncContactForms (.resolved pendingForms) post).result = .resolved () ∧
    (∀ error, (syncContactForms (.rejected error) post).result = .resolved ()) := by
  obtain ⟨h1, h2⟩ := syncForms_eq post pendingForms 0
  refine ⟨h1, h2, rfl, fun _ => rfl⟩

/-- Witness of C25: three pending forms; the first POST answers 200, the second is
rejected, the third answers 500. -/
theorem syncContactForms_posts_each_once_witness :
    (syncContactForms (.resolved [⟨1, "name=a"⟩, ⟨2, "name=b"⟩, ⟨3, "name=c"⟩])
      (fun k => if k = 0 then .resolved (sampleResponse 200 "ok")
        else if k = 1 then .rejected "offline"
        else .resolved (sampleResponse 500 "error"))).posts
      = [("/contact", "name=a"), ("/contact", "name=b"), ("/contact", "name=c")] ∧
    (syncContactForms (.resolved [⟨1, "name=a"⟩, ⟨2, "name=b"⟩, ⟨3, "name=c"⟩])
      (fun k => if k = 0 then .resolved (sampleResponse 200 "ok")
        else if k = 1 then .rejected "offline"
        else .resolved (sampleResponse 500 "error"))).removed = [1] :=
  ⟨(syncContactForms_posts_each_once [⟨1, "name=a"⟩, ⟨2, "name=b"⟩, ⟨3, "name=c"⟩]
      (fun k => if k = 0 then .resolved (sampleResponse 200 "ok")
        else if k = 1 then .rejected "offline"
        else .resolved (sampleResponse 500 "error"))).1,
    (syncContactForms_posts_each_once [⟨1, "name=a"⟩, ⟨2, "name=b"⟩, ⟨3, "name=c"⟩]
      (fun k => if k = 0 then .resolved (sampleResponse 200 "ok")
        else if k = 1 then .rejected "offline"
        else .resolved (sampleResponse 500 "error"))).2.1.trans (by decide)⟩

/-! ## Repeated eviction: C29 -/

/-- C29: eviction is idempotent. Running `cleanOldCaches` on the storage that
`cleanOldCaches` left gives that storage again and makes no `caches.delete` call; the same
holds of the activate listener, whose second run has `clients.claim` as its only effect. -/
theorem eviction_idempotent (caches : CacheStorage) :
    (cleanOldCaches (cleanOldCaches caches).caches).caches = (cleanOldCaches caches).caches ∧
    (cleanOldCaches (cleanOldCaches caches).caches).effects = [] ∧
    (activateListener (activateListener caches).caches).caches
      = (activateListener caches).caches ∧
    (activateListener (activateListener caches).caches).effects = [.clientsClaim] := by
  have hclean := cleanOldCaches_eq caches
  have hact := activateListener_caches caches
  refine ⟨?_, ?_, ?_, ?_⟩
  · rw [hclean, cleanOldCaches_eq]
    exact evicted_filter_again caches
  · rw [hclean, cleanOldCaches_eq]
    dsimp only
    rw [evicted_keys_not_old]
    rfl
  · rw [hact, activateListener_caches]
    exact evicted_filter_again caches
  · rw [hact, activateListener_effects, evicted_keys_not_old]
    rfl

end ServiceWorker

namespace Forms

/-! ## The two field validators: C30 -/

theorem isDigit_eq_inRange (c : Char) : isDigit c = inRange '0' '9' c := by
  unfold isDigit inRange
  by_cases h : 48 ≤ c.toNat ∧ c.toNat ≤ 57
  · have hc : c = Char.ofNat c.toNat := (Char.ofNat_toNat c).symm
    obtain ⟨h1, h2⟩ := h
    generalize c.toNat = n at hc h1 h2
    subst hc
    interval_cases n <;> decide
  · have hr : (decide ('0'.toNat ≤ c.toNat) && decide (c.toNat ≤ '9'.toNat)) = false := by
      have e0 : '0'.toNat = 48 := by decide
      have e9 : '9'.toNat = 57 := by decide
      rw [e0, e9, Bool.eq_false_iff]
      intro hh
      simp at hh
      exact h hh
    rw [hr, Bool.eq_false_iff]
    intro hmem
    have hlist : c ∈ "0123456789".data := by simpa [List.contains] using hmem
    apply h
    simp at hlist
    rcases hlist with rfl | rfl | rfl | rfl | rfl | rfl | rfl | rfl | rfl | rfl <;> decide

theorem phoneRegex_eq : ContactForm.phoneRegex = ETEASApp.phoneRegex := by
  unfold ContactForm.phoneRegex ETEASApp.phoneRegex
  have hcls : (fun c => isDigit c || isWhiteSpace c || c == '-' || c == '(' || c == ')')
      = (fun c => inRange '0' '9' c || isWhiteSpace c || c == '-' || c == '(' || c == ')') := by
    funext c
    rw [isDigit_eq_inRange]
  rw [hcls]

theorem emailRegex_eq : ContactForm.emailRegex = ETEASApp.emailRegex := rfl

/-- C30: the validator of the contact page is at least as strict as the site-wide one. For
every field, if `ETEASApp.validateField` rejects it then `ContactForm.validateField` rejects
it too; the two email patterns and the two phone patterns accept the same strings; and a
required field that is empty after trimming, a malformed email and a malformed phone
number are rejected by both. -/
theorem contact_validator_at_least_as_strict (field : Field) :
    (ETEASApp.validateField field = false → ContactForm.validateField field = false) ∧
    (∀ s, RegExp.test ContactForm.emailRegex s = RegExp.test ETEASApp.emailRegex s) ∧
    (∀ s, RegExp.test ContactForm.phoneRegex s = RegExp.test ETEASApp.phoneRegex s) ∧
    (field.required = true → trim field.value = "" →
      ETEASApp.validateField field = false ∧ ContactForm.validateField field = false) ∧
    (field.type = "email" → trim field.value ≠ "" →
      RegExp.test ETEASApp.emailRegex (trim field.value) = false →
      ETEASApp.validateField field = false ∧ ContactForm.validateField field = false) ∧
    (field.type = "tel" → trim field.value ≠ "" →
      RegExp.test ETEASApp.phoneRegex (trim field.value) = false →
      ETEASApp.validateField field = false ∧ ContactForm.validateField field = false) := by
  have hphone := phoneRegex_eq
  have hemail := emailRegex_eq
  refine ⟨fun h => ?_, fun s => by rw [hemail], fun s => by rw [hphone], fun hreq hempty => ?_,
    fun htype hvalue htest => ?_, fun htype hvalue htest => ?_⟩
  · unfold ETEASApp.validateField at h
    unfold ContactForm.validateField
    rw [hphone, hemail]
    dsimp only at h ⊢
    split_ifs at h ⊢ <;> simp_all
  · unfold ETEASApp.validateField ContactForm.validateField
    dsimp only
    simp [hreq, hempty]
  · have hne : ¬ ("email" : String) = "tel" := by decide
    unfold ETEASApp.validateField ContactForm.validateField
    rw [hemail]
    dsimp only
    simp [htype, hvalue, htest, hne]
  · have hne : ¬ ("tel" : String) = "email" := by decide
    unfold ETEASApp.validateField ContactForm.validateField
    rw [hphone]
    dsimp only
    simp [htype, hvalue, htest, hne]

/-- Witness of C30: an email field holding "abc", a phone field holding "12345" and an
empty required text field are rejected by both validators. -/
theorem contact_validator_at_least_as_strict_witness :
    ContactForm.validateField ⟨"email", "email", " abc ", false, false⟩ = false ∧
    ContactForm.validateField ⟨"tel", "phone", "12345", false, false⟩ = false ∧
    ContactForm.validateField ⟨"text", "name", "  ", true, false⟩ = false :=
  ⟨(contact_validator_at_least_as_strict ⟨"email", "email", " abc ", false, false⟩).1
      (by decide),
    (contact_validator_at_least_as_strict ⟨"tel", "phone", "12345", false, false⟩).1
      (by decide),
    (contact_validator_at_least_as_strict ⟨"text", "name", "  ", true, false⟩).1
      (by decide)⟩

end Forms
